import Mathlib

/-!
# Verification of the arclint import-graph analyzer and rule engine

Shallow embedding of the core of the `efremidze/arclint` repository:
the per-language import parsers (Python, Kotlin, Swift), the dependency
resolvers, and the `RuleEngine` (layer assignment, layer-boundary check,
circular-dependency check, unresolved-import check, business-logic
placement check, Kotlin anti-pattern check).

Strings are modelled with Lean `String` (the analyzed inputs are ASCII, so
JS code-unit semantics and Lean character semantics coincide).  JavaScript
`Map`s are modelled as association lists with in-place overwrite on `set`
(which is exactly the JS insertion-order/overwrite behaviour), and JS `Set`s
as lists with membership tests.
-/

namespace Arclint

/-- JS `\s` / trim whitespace class (the ASCII part, which is all that the
analyzed sources contain). -/
def jsIsSpace (c : Char) : Bool :=
  c == ' ' || c == '\t' || c == '\n' || c == '\r' || c == '\x0b' || c == '\x0c'

/-- JS `String.prototype.trim` (ASCII whitespace). -/
def trimJs (s : String) : String :=
  String.mk (((s.data.dropWhile jsIsSpace).reverse.dropWhile jsIsSpace).reverse)

/-- Character-list prefix test. -/
def charsHasPfx : List Char → List Char → Bool
  | [], _ => true
  | _ :: _, [] => false
  | a :: as, b :: bs => a == b && charsHasPfx as bs

/-- Character-list substring test. -/
def charsHasSub : List Char → List Char → Bool
  | sub, [] => sub.isEmpty
  | sub, c :: rest => charsHasPfx sub (c :: rest) || charsHasSub sub rest

/-- JS `String.prototype.includes`: substring test. -/
def strContains (s sub : String) : Bool :=
  charsHasSub sub.data s.data

/-- Source: `String.prototype.startsWith`. -/
def strStartsWith (s pfx : String) : Bool :=
  charsHasPfx pfx.data s.data

/-- Source: `String.prototype.endsWith`. -/
def strEndsWith (s suf : String) : Bool :=
  charsHasPfx suf.data.reverse s.data.reverse

/-- Drop the first `n` characters. -/
def strDrop (s : String) (n : Nat) : String :=
  String.mk (s.data.drop n)

/-- Drop the last `n` characters (JS `slice(0, -n)`). -/
def strDropRight (s : String) (n : Nat) : String :=
  String.mk (s.data.take (s.data.length - n))

/-- Lower-case every character (the analyzed identifiers are ASCII). -/
def strToLower (s : String) : String :=
  String.mk (s.data.map Char.toLower)

/-- JS `String.prototype.split` with a single-character separator
(`"".split(c)` is `[""]`). -/
def splitOnCharGo (c : Char) : List Char → List Char → List String
  | cur, [] => [String.mk cur.reverse]
  | cur, d :: rest =>
    if d == c then String.mk cur.reverse :: splitOnCharGo c [] rest
    else splitOnCharGo c (d :: cur) rest

/-- JS `String.prototype.split` with a single-character separator. -/
def splitOnChar (s : String) (c : Char) : List String :=
  splitOnCharGo c [] s.data

/-- JS `Array.prototype.join`. -/
def strIntercalate (sep : String) : List String → String
  | [] => ""
  | [s] => s
  | s :: rest => s ++ sep ++ strIntercalate sep rest

/-- JS `value.split(char).length - 1`: number of occurrences of a character. -/
def countChar (value : String) (ch : Char) : Nat :=
  value.data.count ch

/-- JS `Map.prototype.set`: overwrite in place (keeping insertion position)
or append at the end. -/
def jsMapSet {α : Type} (m : List (String × α)) (k : String) (v : α) :
    List (String × α) :=
  match m with
  | [] => [(k, v)]
  | (k', v') :: rest =>
    if k' = k then (k, v) :: rest else (k', v') :: jsMapSet rest k v

/-- JS `Map.prototype.get` (first — and only — binding of the key). -/
def jsMapLookup {α : Type} (m : List (String × α)) (k : String) : Option α :=
  match m with
  | [] => none
  | (k', v) :: rest => if k' = k then some v else jsMapLookup rest k

/-- JS `Map.prototype.has`. -/
def jsMapHasKey {α : Type} (m : List (String × α)) (k : String) : Bool :=
  (jsMapLookup m k).isSome

/-- Build a JS `Map` from a list of entries (`new Map(entries)`): later
entries overwrite earlier ones in place. -/
def jsMapFromList {α : Type} (l : List (String × α)) : List (String × α) :=
  l.foldl (fun m e => jsMapSet m e.1 e.2) []

/-! ## Data model (`src/types.ts`) -/

/-- Source: `ViolationSeverity` enum. -/
inductive ViolationSeverity
  | error
  | warning
  | info
deriving Repr, DecidableEq

/-- Source: `ViolationType` enum. -/
inductive ViolationType
  | wrongDependencyDirection
  | patternInconsistency
  | misplacedBusinessLogic
  | layerViolation
  | circularDependency
  | unresolvedImport
deriving Repr, DecidableEq

/-- Source: `Dependency` record.  The source fields `from` and `to` are Lean
keywords, so they are called `fromPath` and `toPath` here (`toPath` holds a
resolved local path, or the raw import text when unresolved/external).  The
optional flags `isExternal`/`isUnresolved` default to `false` (JS
`undefined` is falsy everywhere the flags are read). -/
structure Dependency where
  fromPath : String
  toPath : String
  importLine : Nat
  importStatement : String
  isExternal : Bool
  isUnresolved : Bool
deriving Repr, DecidableEq

/-- Source: `Module` record (the ecosystem-specific `signals` field is not read by
any code verified here and is omitted). -/
structure Module where
  path : String
  layer : Option String := none
  dependencies : List Dependency
  exports : List String
deriving Repr, DecidableEq

/-- Source: `LayerDefinition` record (layer names are the string values of the
`LayerType` enum; the cosmetic `description` field is omitted). -/
structure LayerDefinition where
  name : String
  pattern : String
  canDependOn : List String
  precedence : Option Int := none
deriving Repr, DecidableEq

/-- Source: `Violation` record. -/
structure Violation where
  ruleId : String
  type : ViolationType
  severity : ViolationSeverity
  message : String
  filePath : String
  line : Nat
  suggestion : Option String
deriving Repr, DecidableEq

/-- The `rules` sub-record of `ArchitectureConfig`; every field is optional. -/
structure RulesConfig where
  enforceLayerBoundaries : Option Bool := none
  preventCircularDependencies : Option Bool := none
  businessLogicInDomain : Option Bool := none
deriving Repr, DecidableEq

/-- Source: `Language` enum (the Kotlin member is referenced throughout the engine
and its tests). -/
inductive Language
  | typescript
  | javascript
  | swift
  | python
  | kotlin
deriving Repr, DecidableEq

/-- Source: `ArchitectureConfig`, restricted to the fields the rule engine reads
(`language`, `layers`, `rules`; `version`/`pattern`/`rootDir`/`ignore` are
never consulted by `RuleEngine`). -/
structure ArchitectureConfig where
  language : Language
  layers : List LayerDefinition
  rules : Option RulesConfig := none
deriving Repr, DecidableEq

/-- Source: `AnalysisResult` record. -/
structure AnalysisResult where
  violations : List Violation
  moduleCount : Nat
  dependencyCount : Nat
deriving Repr, DecidableEq

/-! ## Glob matching (`RuleEngine.matchGlob`, `getPatternSpecificity`) -/

/-- Source: `path.replace(/\\/g, '/')`. -/
def normalizeSlashes (s : String) : String :=
  String.mk (s.data.map fun c => if c = '\\' then '/' else c)

/-- Pattern length after stripping `*` and `?`
(`pattern.replace(/\*/g, '').replace(/\?/g, '').length`). -/
def getPatternSpecificity (pattern : String) : Nat :=
  (pattern.data.filter fun c => !(c == '*' || c == '?')).length

/-- Tokens of the regex produced by the glob-to-regex fallback translation
(`**` becomes `.*`, `*` becomes `[^/]*`, `?` becomes `.`; a literal `.` in
the pattern is left unescaped and therefore also matches any character).
The patterns appearing in this code base contain no other regex
metacharacters, so every remaining character is a literal. -/
inductive GlobTok
  | anyDeep
  | anySeg
  | anyChar
  | lit (c : Char)
deriving Repr, DecidableEq

/-- Tokenization of a glob pattern, mirroring the chained `replace` calls. -/
def globTokens : List Char → List GlobTok
  | [] => []
  | '*' :: '*' :: rest => .anyDeep :: globTokens rest
  | '*' :: rest => .anySeg :: globTokens rest
  | '?' :: rest => .anyChar :: globTokens rest
  | '.' :: rest => .anyChar :: globTokens rest
  | c :: rest => .lit c :: globTokens rest

/-- Anchored regex matching (`^ … $`) for the translated glob tokens, with
full backtracking (exactly the language accepted by the JS regex). -/
def globMatch : List GlobTok → List Char → Bool
  | [], [] => true
  | [], _ :: _ => false
  | .lit _ :: _, [] => false
  | .lit c :: ts, d :: ds => c == d && globMatch ts ds
  | .anyChar :: _, [] => false
  | .anyChar :: ts, _ :: ds => globMatch ts ds
  | .anySeg :: ts, [] => globMatch ts []
  | .anySeg :: ts, d :: ds =>
    globMatch ts (d :: ds) || (!(d == '/') && globMatch (.anySeg :: ts) ds)
  | .anyDeep :: ts, [] => globMatch ts []
  | .anyDeep :: ts, d :: ds =>
    globMatch ts (d :: ds) || globMatch (.anyDeep :: ts) ds
termination_by ts cs => (cs.length, ts.length)

/-- Source: `RuleEngine.matchGlob`: three fast paths, then the regex fallback. -/
def matchGlob (path pattern : String) : Bool :=
  let pd := pattern.data
  -- Pattern **/folder/** : path contains /folder/ or starts with folder/
  if 7 ≤ pd.length && strStartsWith pattern "**/" && strEndsWith pattern "/**" &&
      ((pd.drop 3).take (pd.length - 6)).all (· != '/') then
    let folder := String.mk ((pd.drop 3).take (pd.length - 6))
    strContains path ("/" ++ folder ++ "/") || strStartsWith path (folder ++ "/")
  -- Pattern folder/** : path starts with folder/
  else if 4 ≤ pd.length && strEndsWith pattern "/**" &&
      (pd.take (pd.length - 3)).all (· != '*') then
    let pfx := String.mk (pd.take (pd.length - 3))
    strStartsWith path (pfx ++ "/")
  -- Pattern **/folder : path ends with /folder or is exactly folder
  else if 4 ≤ pd.length && strStartsWith pattern "**/" &&
      (pd.drop 3).all (· != '/') then
    let suffix := String.mk (pd.drop 3)
    strEndsWith path ("/" ++ suffix) || path == suffix
  else
    globMatch (globTokens pd) path.data

/-! ## Layer assignment (`RuleEngine.assignLayersToModules`) -/

/-- Source: `layerDef.precedence ?? -1`. -/
def layerEffPrec (ld : LayerDefinition) : Int :=
  ld.precedence.getD (-1)

/-- The selection loop of `assignLayersToModules` for one module: the state
is `(selectedLayer, selectedPatternSpecificity, selectedOrder)`; `path` is
already slash-normalized. -/
def selectLoop (path : String) :
    List (Nat × LayerDefinition) → Option (LayerDefinition × Nat × Nat) →
    Option (LayerDefinition × Nat × Nat)
  | [], st => st
  | (order, layerDef) :: rest, st =>
    if matchGlob path (normalizeSlashes layerDef.pattern) then
      match st with
      | none =>
        selectLoop path rest
          (some (layerDef, getPatternSpecificity (normalizeSlashes layerDef.pattern), order))
      | some (sel, sspec, sorder) =>
        if layerEffPrec layerDef > layerEffPrec sel then
          selectLoop path rest
            (some (layerDef, getPatternSpecificity (normalizeSlashes layerDef.pattern), order))
        else if layerEffPrec layerDef = layerEffPrec sel then
          if getPatternSpecificity (normalizeSlashes layerDef.pattern) > sspec then
            selectLoop path rest
              (some (layerDef, getPatternSpecificity (normalizeSlashes layerDef.pattern), order))
          else if getPatternSpecificity (normalizeSlashes layerDef.pattern) = sspec ∧
              order < sorder then
            selectLoop path rest
              (some (layerDef, getPatternSpecificity (normalizeSlashes layerDef.pattern), order))
          else selectLoop path rest (some (sel, sspec, sorder))
        else selectLoop path rest (some (sel, sspec, sorder))
    else selectLoop path rest st

/-- Layer selected for one module path (the body of the `modules.map`). -/
def selectLayer (layers : List LayerDefinition) (modulePath : String) :
    Option LayerDefinition :=
  (selectLoop (normalizeSlashes modulePath) layers.enum none).map (·.1)

/-- Source: `RuleEngine.assignLayersToModules`. -/
def assignLayersToModules (layers : List LayerDefinition)
    (modules : List Module) : List Module :=
  modules.map fun m =>
    match selectLayer layers m.path with
    | some ld => { m with layer := some ld.name }
    | none => m

/-! ## Rule engine checks (`RuleEngine`) -/

/-- A single-quote character, used inside violation messages. -/
def sq : String :=
  String.singleton (Char.ofNat 39)

/-- The `layerMap` built in the `RuleEngine` constructor. -/
def layerMapOf (layers : List LayerDefinition) : List (String × LayerDefinition) :=
  jsMapFromList (layers.map fun ld => (ld.name, ld))

/-- The violation pushed by `checkUnresolvedImports`. -/
def unresolvedImportViolation (m : Module) (dep : Dependency) : Violation where
  ruleId := "unresolved-import"
  type := .unresolvedImport
  severity := .info
  message := "Unresolved internal import: " ++ sq ++ dep.toPath ++ sq
  filePath := m.path
  line := dep.importLine
  suggestion := some
    "Verify file path, extension, tsconfig path aliases, or barrel exports for this import."

/-- Source: `RuleEngine.checkUnresolvedImports`. -/
def checkUnresolvedImports (modules : List Module) : List Violation :=
  modules.flatMap fun m =>
    m.dependencies.filterMap fun dep =>
      if dep.isExternal || !dep.isUnresolved then none
      else some (unresolvedImportViolation m dep)

/-- The violation pushed by `checkLayerBoundaries`. -/
def boundaryViolation (m : Module) (lname : String) (layerDef : LayerDefinition)
    (dep : Dependency) (targetLayer : String) : Violation where
  ruleId := "dependency-direction"
  type := .wrongDependencyDirection
  severity := .error
  message := "Layer " ++ sq ++ lname ++ sq ++ " cannot depend on layer " ++
    sq ++ targetLayer ++ sq
  filePath := m.path
  line := dep.importLine
  suggestion := some ("Remove or refactor this dependency. " ++ layerDef.name ++
    " can only depend on: " ++
    (let joined := strIntercalate ", " layerDef.canDependOn
     if joined = "" then "nothing" else joined))

/-- Source: `RuleEngine.checkLayerBoundaries`.  The JS truthiness tests
`!module.layer` / `!targetModule.layer` also skip the empty string, hence
the explicit `= ""` guards. -/
def checkLayerBoundaries (layers : List LayerDefinition) (modules : List Module) :
    List Violation :=
  modules.flatMap fun m =>
    match m.layer with
    | none => []
    | some lname =>
      if lname = "" then []
      else
        match jsMapLookup (layerMapOf layers) lname with
        | none => []
        | some layerDef =>
          m.dependencies.filterMap fun dep =>
            if dep.isExternal || dep.isUnresolved then none
            else
              match jsMapLookup (jsMapFromList (modules.map fun m2 => (m2.path, m2)))
                dep.toPath with
              | none => none
              | some target =>
                match target.layer with
                | none => none
                | some tl =>
                  if tl = "" then none
                  else if tl = lname then none
                  else if layerDef.canDependOn.contains tl then none
                  else some (boundaryViolation m lname layerDef dep tl)

/-! ### Circular-dependency check

The JS `dfs` closure shares three mutable structures (`visited`,
`recursionStack`, `cycles`); they are threaded here as an explicit state.
The recursion is driven by a fuel parameter: a nested `dfsVisit` call only
happens on an unvisited node, which is immediately marked visited, so the
recursion depth is bounded by the number of graph keys and
`graph.length + 1` fuel is never exhausted. -/

/-- The mutable state of the cycle-detection DFS. -/
structure DfsState where
  visited : List String
  recStack : List String
  cycles : List (List String)
deriving Repr, DecidableEq

/-- The dependency graph (`path -> list of dependency targets`) built by
`checkCircularDependencies`. -/
def graphOf (modules : List Module) : List (String × List String) :=
  modules.foldl (fun g m => jsMapSet g m.path (m.dependencies.map (·.toPath))) []

/-- One call of the JS `dfs(node, path)` closure; the
`for (const neighbor of neighbors)` loop is the `foldl` threading the
shared state. -/
def dfsVisit (graph : List (String × List String)) :
    Nat → String → List String → DfsState → DfsState
  | 0, _, _, st => st
  | fuel + 1, node, path, st =>
    let st1 : DfsState :=
      { st with visited := node :: st.visited, recStack := node :: st.recStack }
    let st2 :=
      ((jsMapLookup graph node).getD []).foldl
        (fun st' neighbor =>
          if !(jsMapHasKey graph neighbor) then st'
          else if !(st'.visited.contains neighbor) then
            dfsVisit graph fuel neighbor (path ++ [node]) st'
          else if st'.recStack.contains neighbor then
            match (path ++ [node]).findIdx? (· == neighbor) with
            | some k =>
              { st' with cycles := st'.cycles ++ [(path ++ [node]).drop k ++ [neighbor]] }
            | none => st'
          else st')
        st1
    { st2 with recStack := st2.recStack.erase node }

/-- The cycle list collected by the outer `for (const node of graph.keys())`
loop of `checkCircularDependencies`. -/
def collectCycles (modules : List Module) : List (List String) :=
  let graph := graphOf modules
  (graph.foldl
    (fun (st : DfsState) e => if st.visited.contains e.1 then st
      else dfsVisit graph (graph.length + 1) e.1 [] st)
    ⟨[], [], []⟩).cycles

/-- The `// Create violations for detected cycles` loop of
`checkCircularDependencies`. -/
def cyclesToViolations (modules : List Module) (cycles : List (List String)) :
    List Violation :=
  cycles.flatMap fun cycle =>
    if 1 < cycle.length then
      match modules.find? (fun m => m.path == cycle.headD "") with
      | some m =>
        [{ ruleId := "circular-dependency"
           type := .circularDependency
           severity := .warning
           message := "Circular dependency detected: " ++
             strIntercalate " -> " cycle
           filePath := m.path
           line := 1
           suggestion := some "Refactor to break the circular dependency by introducing an abstraction or reorganizing modules" }]
      | none => []
    else []

/-- Source: `RuleEngine.checkCircularDependencies`. -/
def checkCircularDependencies (modules : List Module) : List Violation :=
  cyclesToViolations modules (collectCycles modules)

/-- Source: `RuleEngine.checkBusinessLogicPlacement`. -/
def checkBusinessLogicPlacement (modules : List Module) : List Violation :=
  let businessLogicKeywords := ["calculate", "compute", "validate", "process",
    "transform", "business", "rule", "logic"]
  modules.flatMap fun m =>
    if m.layer == some "presentation" || m.layer == some "view" ||
        m.layer == some "ui" then
      m.exports.filterMap fun exportName =>
        let lowerName := strToLower exportName
        let hasBusinessLogic :=
          businessLogicKeywords.any fun keyword => strContains lowerName keyword
        if hasBusinessLogic && exportName != "default" then
          some
            { ruleId := "business-logic-placement"
              type := .misplacedBusinessLogic
              severity := .warning
              message := "Possible business logic detected in " ++
                m.layer.getD "" ++ " layer: " ++ sq ++ exportName ++ sq
              filePath := m.path
              line := 1
              suggestion := some "Move business logic to the domain/business logic layer. Keep presentation layer focused on UI concerns." }
        else none
    else []

/-- Source: `RuleEngine.checkKotlinArchitectureAntiPatterns`. -/
def checkKotlinArchitectureAntiPatterns (modules : List Module) : List Violation :=
  modules.flatMap fun m =>
    let modulePath := normalizeSlashes m.path
    let lowerPath := strToLower modulePath
    let isPresentationModule :=
      m.layer == some "presentation" || m.layer == some "view" ||
      m.layer == some "ui" ||
      strContains lowerPath "/ui/" || strContains lowerPath "/view/" ||
      strContains lowerPath "/views/" ||
      strEndsWith lowerPath "activity.kt" || strEndsWith lowerPath "fragment.kt" ||
      strEndsWith lowerPath "screen.kt"
    let isViewModelModule :=
      m.layer == some "viewmodel" || strContains lowerPath "/viewmodel/" ||
      strContains lowerPath "/viewmodels/"
    let isDomainModule := m.layer == some "domain" || strContains lowerPath "/domain/"
    m.dependencies.flatMap fun dep =>
      let importStatement := strToLower dep.importStatement
      let dependencyPath := strToLower (normalizeSlashes dep.toPath)
      (if isPresentationModule then
        let importsDataLayerDirectly :=
          strContains importStatement ".data." ||
          strContains importStatement ".repository." ||
          strContains importStatement ".repositories." ||
          strContains importStatement ".dao." ||
          strContains dependencyPath "/data/" ||
          strContains dependencyPath "/repository/" ||
          strContains dependencyPath "/repositories/" ||
          strContains dependencyPath "/dao/"
        let importsNetworkOrDbFramework :=
          strContains importStatement "retrofit2." ||
          strContains importStatement "okhttp3." ||
          strContains importStatement "io.ktor." ||
          strContains importStatement "androidx.room." ||
          strContains importStatement "java.sql." ||
          strContains importStatement "javax.sql."
        if importsDataLayerDirectly || importsNetworkOrDbFramework then
          [{ ruleId := "kotlin-architecture-anti-pattern"
             type := .misplacedBusinessLogic
             severity := .warning
             message := "Kotlin UI/presentation module imports data-access or infrastructure concerns directly."
             filePath := m.path
             line := dep.importLine
             suggestion := some "Route this dependency through a ViewModel/use-case boundary to keep UI focused on presentation." }]
        else []
      else []) ++
      (if isViewModelModule then
        let dependsOnUiModule :=
          strContains dependencyPath "/ui/" ||
          strContains dependencyPath "/view/" ||
          strContains dependencyPath "/views/" ||
          strContains importStatement ".ui." ||
          strContains importStatement ".view." ||
          strContains importStatement ".views."
        if dependsOnUiModule then
          [{ ruleId := "kotlin-architecture-anti-pattern"
             type := .misplacedBusinessLogic
             severity := .warning
             message := "Kotlin ViewModel appears to depend on UI-layer types."
             filePath := m.path
             line := dep.importLine
             suggestion := some "Keep ViewModel independent from UI classes. Share state via domain models or UI-agnostic DTOs." }]
        else []
      else []) ++
      (if isDomainModule then
        let importsFrameworkLayer :=
          strContains importStatement "android." ||
          strContains importStatement "androidx." ||
          strContains importStatement "retrofit2." ||
          strContains importStatement "okhttp3." ||
          strContains importStatement "io.ktor." ||
          strContains importStatement "androidx.room."
        if importsFrameworkLayer then
          [{ ruleId := "kotlin-architecture-anti-pattern"
             type := .misplacedBusinessLogic
             severity := .warning
             message := "Kotlin domain module imports framework/infrastructure APIs directly."
             filePath := m.path
             line := dep.importLine
             suggestion := some "Move framework dependencies to data/infrastructure layers and depend on interfaces in domain." }]
        else []
      else [])

/-- Source: `this.config.rules?.flag !== false` (an absent record or absent field
counts as enabled). -/
def ruleEnabled (rules : Option RulesConfig) (f : RulesConfig → Option Bool) : Bool :=
  !(rules.bind f == some false)

/-- Source: `RuleEngine.analyze`. -/
def analyze (config : ArchitectureConfig) (modules : List Module) : AnalysisResult :=
  let modulesWithLayers := assignLayersToModules config.layers modules
  let violations :=
    checkUnresolvedImports modulesWithLayers ++
    (if ruleEnabled config.rules (·.enforceLayerBoundaries) then
      checkLayerBoundaries config.layers modulesWithLayers
    else []) ++
    (if ruleEnabled config.rules (·.preventCircularDependencies) then
      checkCircularDependencies modulesWithLayers
    else []) ++
    (if ruleEnabled config.rules (·.businessLogicInDomain) then
      checkBusinessLogicPlacement modulesWithLayers
    else []) ++
    (if config.language == Language.kotlin then
      checkKotlinArchitectureAntiPatterns modulesWithLayers
    else [])
  { violations := violations
    moduleCount := modules.length
    dependencyCount := modules.foldl (fun sum m => sum + m.dependencies.length) 0 }

/-! ## Python analyzer (`languages/python/analyzer.ts`)

The import-recognition regexes of `parseImports` are deterministic scanners
(no backtracking can succeed where the greedy scan fails, because the
character classes involved — `\s`, `[.\w]`, literals — are pairwise
disjoint at every boundary), so they are embedded as direct scanning
functions.  `parseImports` only ever matches them against trimmed lines, on
which the scanners agree with the regexes. -/

/-- JS `\w` character class. -/
def isWordChar (c : Char) : Bool :=
  c.isAlphanum || c == '_'

/-- The `[.\w]` character class of the `from … import` regexes. -/
def isSpecChar (c : Char) : Bool :=
  isWordChar c || c == '.'

/-- Expect a literal character sequence, returning the remainder. -/
def dropLit : List Char → List Char → Option (List Char)
  | [], cs => some cs
  | l :: ls, c :: cs => if c == l then dropLit ls cs else none
  | _ :: _, [] => none

/-- Regex `\s+`: at least one whitespace character, consumed greedily. -/
def dropWs1 (cs : List Char) : Option (List Char) :=
  match cs with
  | c :: rest => if jsIsSpace c then some (rest.dropWhile jsIsSpace) else none
  | [] => none

/-- Scanner for `^import\s+(.+)$` (on a trimmed line): the captured text. -/
def pythonMatchImport (line : String) : Option String := do
  let r1 ← dropLit "import".data line.data
  let r2 ← dropWs1 r1
  if r2.isEmpty then none else some (String.mk r2)

/-- Shared scanner for `^from\s+([.\w]+)\s+import`: the captured module
spec and the remainder after the literal `import`. -/
def pythonFromSplit (line : String) : Option (String × List Char) := do
  let r1 ← dropLit "from".data line.data
  let r2 ← dropWs1 r1
  let spec := r2.takeWhile isSpecChar
  if spec.isEmpty then none
  else
    let r3 := r2.dropWhile isSpecChar
    let r4 ← dropWs1 r3
    let r5 ← dropLit "import".data r4
    some (String.mk spec, r5)

/-- Test for `/^from\s+[.\w]+\s+import\b/`. -/
def pythonTestFromImportWord (line : String) : Bool :=
  match pythonFromSplit line with
  | some (_, rest) =>
    match rest with
    | [] => true
    | c :: _ => !(isWordChar c)
  | none => false

/-- Test for `/^from\s+[.\w]+\s+import\s*\(/`. -/
def pythonTestFromImportParen (line : String) : Bool :=
  match pythonFromSplit line with
  | some (_, rest) =>
    match rest.dropWhile jsIsSpace with
    | '(' :: _ => true
    | _ => false
  | none => false

/-- Scanner for `^from\s+([.\w]+)\s+import\s+(.+)$` (on a trimmed line):
the module spec and the imported-names text. -/
def pythonMatchFromImport (line : String) : Option (String × String) := do
  let (spec, rest) ← pythonFromSplit line
  let r ← dropWs1 rest
  if r.isEmpty then none else some (spec, String.mk r)

/-- Does `/\s+as\s+/` match at the start of this character list? -/
def asSepAt (l : List Char) : Bool :=
  match l with
  | c :: _ =>
    jsIsSpace c &&
    (match l.dropWhile jsIsSpace with
     | 'a' :: 's' :: d :: _ => jsIsSpace d
     | _ => false)
  | [] => false

/-- Characters before the first match of `/\s+as\s+/`. -/
def takeUntilAsSep : List Char → List Char
  | [] => []
  | c :: rest => if asSepAt (c :: rest) then [] else c :: takeUntilAsSep rest

/-- JS `part.split(/\s+as\s+/)[0]`. -/
def splitAsHead (s : String) : String :=
  String.mk (takeUntilAsSep s.data)

/-- JS trim of trailing whitespace only. -/
def trimRightJs (s : String) : String :=
  String.mk (s.data.reverse.dropWhile jsIsSpace).reverse

/-- JS `importSpec.replace(/^\(\s*/, '')`. -/
def stripParenOpen (s : String) : String :=
  match s.data with
  | '(' :: rest => String.mk (rest.dropWhile jsIsSpace)
  | _ => s

/-- JS `importSpec.replace(/\s*\)\s*$/, '')`. -/
def stripParenClose (s : String) : String :=
  let r := trimRightJs s
  if strEndsWith r ")" then trimRightJs (strDropRight r 1) else s

/-- JS `part.replace(/,$/, '')`. -/
def dropTrailingComma (s : String) : String :=
  if strEndsWith s "," then strDropRight s 1 else s

/-- Source: `PythonImportGraphAnalyzer.parseImportedNames`. -/
def pythonParseImportedNames (importSpec : String) : List String :=
  let normalized := stripParenClose (stripParenOpen (trimJs importSpec))
  (((splitOnChar normalized ',').map trimJs).filter (· ≠ "")
    |>.map fun part => trimJs (splitAsHead (dropTrailingComma part)))
    |>.filter (· ≠ "")

/-- The name list of a single-line `import …` statement
(`importMatch[1].split(',').map(part => part.trim().split(/\s+as\s+/)[0].trim()).filter(Boolean)`). -/
def pythonParseNames (txt : String) : List String :=
  ((splitOnChar txt ',').map fun part => trimJs (splitAsHead (trimJs part)))
    |>.filter (· ≠ "")

/-- JS `join(' ').replace(/\s+/g, ' ')`: collapse whitespace runs to a
single space (the flag records whether the previous character was part of a
run already collapsed). -/
def collapseWsGo (prevWs : Bool) : List Char → List Char
  | [] => []
  | c :: rest =>
    if jsIsSpace c then
      if prevWs then collapseWsGo true rest else ' ' :: collapseWsGo true rest
    else c :: collapseWsGo false rest

/-- Collapse every whitespace run to a single space. -/
def collapseWs (s : String) : String :=
  String.mk (collapseWsGo false s.data)

/-- The `while (parenDepth > 0 …)` collection loop of
`readFromImportStatement`; the fuel (`lines.length` at the top call) is
never exhausted because `idx` strictly increases and is bounded by
`lines.length`. -/
def parenCollect (lines : List String) : Nat → Nat → Int → List String
  | 0, _, _ => []
  | fuel + 1, idx, depth =>
    if depth > 0 ∧ idx < lines.length then
      let nextLine := trimJs (lines.getD idx "")
      nextLine ::
        parenCollect lines fuel (idx + 1)
          (depth + (countChar nextLine '(' : Int) - (countChar nextLine ')' : Int))
    else []

/-- Source: `PythonImportGraphAnalyzer.readFromImportStatement`: the joined
statement, the number of consumed lines, and the 1-based line number. -/
def pythonReadFromImportStatement (lines : List String) (startLineIndex : Nat) :
    String × Nat × Nat :=
  let firstLine := trimJs (lines.getD startLineIndex "")
  if !(pythonTestFromImportWord firstLine) then (firstLine, 1, startLineIndex + 1)
  else if !(pythonTestFromImportParen firstLine) then
    (firstLine, 1, startLineIndex + 1)
  else
    let depth0 : Int := (countChar firstLine '(' : Int) - (countChar firstLine ')' : Int)
    let collected := parenCollect lines lines.length (startLineIndex + 1) depth0
    (trimJs (collapseWs (strIntercalate " " (firstLine :: collected))),
      1 + collected.length, startLineIndex + 1)

/-- Source: `moduleName.split('.')[0]`. -/
def pythonRootSegment (name : String) : String :=
  (splitOnChar name '.').headD ""

/-- Source: `PythonImportGraphAnalyzer.resolveDependency`. -/
def pythonResolveDependency (fromPath : String) (line : Nat)
    (importStatement : String) (moduleName : String)
    (moduleIndex : List (String × String)) (topLevelPackages : List String) :
    Dependency :=
  match jsMapLookup moduleIndex moduleName with
  | some resolvedPath => ⟨fromPath, resolvedPath, line, importStatement, false, false⟩
  | none =>
    let rootPackage := pythonRootSegment moduleName
    let looksInternal := topLevelPackages.contains rootPackage
    ⟨fromPath, moduleName, line, importStatement, !looksInternal, looksInternal⟩

/-- Source: `PythonImportGraphAnalyzer.resolveModuleSpec`. -/
def pythonResolveModuleSpec (moduleSpec fromModule : String) : Option String :=
  if !(strStartsWith moduleSpec ".") then some moduleSpec
  else
    let dots := (moduleSpec.data.takeWhile (· == '.')).length
    let suffix := strDrop moduleSpec dots
    let moduleParts := (splitOnChar fromModule '.').filter (· ≠ "")
    let packageParts := moduleParts.dropLast
    let parentLevels := dots - 1
    if parentLevels > packageParts.length then none
    else
      let baseParts := packageParts.take (packageParts.length - parentLevels)
      let suffixParts :=
        if suffix = "" then [] else (splitOnChar suffix '.').filter (· ≠ "")
      let resolved := strIntercalate "." (baseParts ++ suffixParts)
      if resolved = "" then none else some resolved

/-- The dependencies pushed by one `from … import …` statement (the body
of the from-import branch of `parseImports`, given the joined statement
text and its 1-based line number).  The source binds
`importedNames`/`childDeps` with `const`; here the pure expressions are
repeated instead, and `childDeps = []` is tested by matching on the list. -/
def pythonFromImportDeps (fromPath fromModule : String)
    (moduleIndex : List (String × String)) (topLevelPackages : List String)
    (statement : String) (lineNumber : Nat) : List Dependency :=
  match pythonMatchFromImport statement with
  | none => []
  | some (moduleSpec, namesTxt) =>
    match pythonResolveModuleSpec moduleSpec fromModule with
    | none => [⟨fromPath, moduleSpec, lineNumber, statement, true, false⟩]
    | some resolvedBase =>
      if pythonParseImportedNames namesTxt = ["*"] then
        [pythonResolveDependency fromPath lineNumber statement resolvedBase
          moduleIndex topLevelPackages]
      else
        match ((pythonParseImportedNames namesTxt).filter fun n =>
            jsMapHasKey moduleIndex (resolvedBase ++ "." ++ n)).map fun n =>
            pythonResolveDependency fromPath lineNumber statement
              (resolvedBase ++ "." ++ n) moduleIndex topLevelPackages with
        | [] =>
          [pythonResolveDependency fromPath lineNumber statement resolvedBase
            moduleIndex topLevelPackages]
        | childDeps@(_ :: _) => childDeps

/-- The body of the `for (let i = 0; …)` loop of
`PythonImportGraphAnalyzer.parseImports`, with `i` as an explicit index.
The fuel (`lines.length` at the top call) is never exhausted: every
iteration advances `i` by `consumedLines ≥ 1` and the loop stops at
`lines.length`. -/
def pythonImportsLoop (fromPath fromModule : String)
    (moduleIndex : List (String × String)) (topLevelPackages : List String)
    (lines : List String) : Nat → Nat → List Dependency
  | 0, _ => []
  | fuel + 1, i =>
    if i < lines.length then
      if trimJs (lines.getD i "") = "" ||
          strStartsWith (trimJs (lines.getD i "")) "#" then
        pythonImportsLoop fromPath fromModule moduleIndex topLevelPackages lines
          fuel (i + 1)
      else
        match pythonMatchImport (trimJs (lines.getD i "")) with
        | some rest =>
          ((pythonParseNames rest).map fun importedModule =>
            pythonResolveDependency fromPath (i + 1) (trimJs (lines.getD i ""))
              importedModule moduleIndex topLevelPackages) ++
          pythonImportsLoop fromPath fromModule moduleIndex topLevelPackages lines
            fuel (i + 1)
        | none =>
          pythonFromImportDeps fromPath fromModule moduleIndex topLevelPackages
            (pythonReadFromImportStatement lines i).1
            (pythonReadFromImportStatement lines i).2.2 ++
          pythonImportsLoop fromPath fromModule moduleIndex topLevelPackages lines
            fuel (i + (pythonReadFromImportStatement lines i).2.1)
    else []

/-- Source: `PythonImportGraphAnalyzer.parseImports`. -/
def pythonParseImports (content fromPath fromModule : String)
    (moduleIndex : List (String × String)) (topLevelPackages : List String) :
    List Dependency :=
  let lines := splitOnChar content '\n'
  pythonImportsLoop fromPath fromModule moduleIndex topLevelPackages lines
    lines.length 0

/-- Source: `PythonImportGraphAnalyzer.filePathToModuleName`. -/
def pythonFilePathToModuleName (relativePath : String) : String :=
  let normalized := normalizeSlashes relativePath
  if strEndsWith normalized "/__init__.py" then
    strIntercalate "." ((splitOnChar (strDropRight normalized 12) '/').filter (· ≠ ""))
  else
    let base := if strEndsWith normalized ".py" then strDropRight normalized 3 else normalized
    strIntercalate "." ((splitOnChar base '/').filter (· ≠ ""))

/-- Source: `PythonImportGraphAnalyzer.buildModuleIndex`, taking the already
root-relative, slash-normalized paths the walker produces. -/
def pythonBuildModuleIndex (relPaths : List String) : List (String × String) :=
  relPaths.foldl (fun idx rp => jsMapSet idx (pythonFilePathToModuleName rp) rp) []

/-- Source: `PythonImportGraphAnalyzer.buildTopLevelPackages` (a JS `Set` in
insertion order). -/
def pythonBuildTopLevelPackages (moduleIndex : List (String × String)) :
    List String :=
  moduleIndex.foldl
    (fun s e =>
      let root := pythonRootSegment e.1
      if root = "" then s else if s.contains root then s else s ++ [root])
    []

/-! ## Kotlin analyzer (`languages/kotlin/analyzer.ts`) -/

/-- The `[A-Za-z_]` class starting identifiers in the Kotlin/Swift import
regexes. -/
def isIdentStartChar (c : Char) : Bool :=
  c.isAlpha || c == '_'

/-- The apostrophe character (Kotlin character-literal delimiter). -/
def squoteChar : Char :=
  Char.ofNat 39

/-- Source: `KotlinSanitizerState`. -/
structure KotlinSanitizerState where
  blockCommentDepth : Nat
  inRawString : Bool
  inDoubleQuote : Bool
  inSingleQuote : Bool
  escaped : Bool
deriving Repr, DecidableEq

/-- The character loop of `sanitizeLineForParsing`: blanks out comment and
string bodies, drops the rest of the line at `//`, and threads the state to
the next line. -/
def kotlinSanitizeCharsGo (fuel : Nat) (st : KotlinSanitizerState) (cs : List Char) :
    List Char × KotlinSanitizerState :=
  match fuel, cs with
  | _, [] => ([], st)
  | 0, _ :: _ => ([], st)
  | fuel + 1, c :: rest =>
    if st.blockCommentDepth > 0 then
      match c, rest with
      | '/', '*' :: rest2 =>
        let r := kotlinSanitizeCharsGo fuel
          { st with blockCommentDepth := st.blockCommentDepth + 1 } rest2
        (' ' :: ' ' :: r.1, r.2)
      | '*', '/' :: rest2 =>
        let r := kotlinSanitizeCharsGo fuel
          { st with blockCommentDepth := st.blockCommentDepth - 1 } rest2
        (' ' :: ' ' :: r.1, r.2)
      | _, _ =>
        let r := kotlinSanitizeCharsGo fuel st rest
        (' ' :: r.1, r.2)
    else if st.inRawString then
      match c, rest with
      | '"', '"' :: '"' :: rest2 =>
        let r := kotlinSanitizeCharsGo fuel { st with inRawString := false } rest2
        (' ' :: ' ' :: ' ' :: r.1, r.2)
      | _, _ =>
        let r := kotlinSanitizeCharsGo fuel st rest
        (' ' :: r.1, r.2)
    else if st.inDoubleQuote then
      if st.escaped then
        let r := kotlinSanitizeCharsGo fuel { st with escaped := false } rest
        (' ' :: r.1, r.2)
      else if c == '\\' then
        let r := kotlinSanitizeCharsGo fuel { st with escaped := true } rest
        (' ' :: r.1, r.2)
      else if c == '"' then
        let r := kotlinSanitizeCharsGo fuel { st with inDoubleQuote := false } rest
        (' ' :: r.1, r.2)
      else
        let r := kotlinSanitizeCharsGo fuel st rest
        (' ' :: r.1, r.2)
    else if st.inSingleQuote then
      if st.escaped then
        let r := kotlinSanitizeCharsGo fuel { st with escaped := false } rest
        (' ' :: r.1, r.2)
      else if c == '\\' then
        let r := kotlinSanitizeCharsGo fuel { st with escaped := true } rest
        (' ' :: r.1, r.2)
      else if c == squoteChar then
        let r := kotlinSanitizeCharsGo fuel { st with inSingleQuote := false } rest
        (' ' :: r.1, r.2)
      else
        let r := kotlinSanitizeCharsGo fuel st rest
        (' ' :: r.1, r.2)
    else
      match c, rest with
      | '/', '/' :: _ => ([], st)
      | '/', '*' :: rest2 =>
        let r := kotlinSanitizeCharsGo fuel
          { st with blockCommentDepth := st.blockCommentDepth + 1 } rest2
        (' ' :: ' ' :: r.1, r.2)
      | '"', '"' :: '"' :: rest2 =>
        let r := kotlinSanitizeCharsGo fuel { st with inRawString := true } rest2
        (' ' :: ' ' :: ' ' :: r.1, r.2)
      | '"', _ =>
        let r := kotlinSanitizeCharsGo fuel { st with inDoubleQuote := true } rest
        (' ' :: r.1, r.2)
      | _, _ =>
        if c == squoteChar then
          let r := kotlinSanitizeCharsGo fuel { st with inSingleQuote := true } rest
          (' ' :: r.1, r.2)
        else
          let r := kotlinSanitizeCharsGo fuel st rest
          (c :: r.1, r.2)

/-- The character loop of `sanitizeLineForParsing`; every round consumes at
least one character, so `cs.length` fuel is never exhausted. -/
def kotlinSanitizeChars (st : KotlinSanitizerState) (cs : List Char) :
    List Char × KotlinSanitizerState :=
  kotlinSanitizeCharsGo cs.length st cs

/-- Source: `sanitizeLinesForParsing` threading the state across lines. -/
def kotlinSanitizeLinesGo (st : KotlinSanitizerState) : List String → List String
  | [] => []
  | l :: rest =>
    let r := kotlinSanitizeChars st l.data
    String.mk r.1 :: kotlinSanitizeLinesGo r.2 rest

/-- Source: `KotlinImportGraphAnalyzer.sanitizeLinesForParsing`. -/
def kotlinSanitizeLinesForParsing (content : String) : List String :=
  kotlinSanitizeLinesGo ⟨0, false, false, false, false⟩ (splitOnChar content '\n')

/-- Greedy consumption of `((\.[A-Za-z_][A-Za-z0-9_]*)|(\.\*))*`, returning
the consumed characters and the remainder.  Each consumed segment is at
least two characters long, so `cs.length` fuel is never exhausted. -/
def kotlinPathSegs : Nat → List Char → List Char × List Char
  | 0, cs => ([], cs)
  | fuel + 1, cs =>
    match cs with
    | '.' :: '*' :: rest =>
      let r := kotlinPathSegs fuel rest
      ('.' :: '*' :: r.1, r.2)
    | '.' :: c :: rest =>
      if isIdentStartChar c then
        let seg := rest.takeWhile isWordChar
        let r := kotlinPathSegs fuel (rest.dropWhile isWordChar)
        ('.' :: c :: seg ++ r.1, r.2)
      else ([], cs)
    | _ => ([], cs)

/-- Scanner for the import regex of `KotlinImportGraphAnalyzer.parseImports`
(`^import\s+([A-Za-z_][A-Za-z0-9_]*(?:\.[A-Za-z_][A-Za-z0-9_]*|\.\*)*)(?:\s+as\s+[A-Za-z_][A-Za-z0-9_]*)?$`),
returning the captured import path.  Every class boundary in the regex is
between disjoint character classes, so the greedy scan is equivalent. -/
def kotlinMatchImport (cleanedLine : String) : Option String := do
  let r1 ← dropLit "import".data cleanedLine.data
  let r2 ← dropWs1 r1
  match r2 with
  | c :: rest =>
    if !(isIdentStartChar c) then none
    else
      let seg := rest.takeWhile isWordChar
      let r3 := rest.dropWhile isWordChar
      let sr := kotlinPathSegs r3.length r3
      let path := String.mk (c :: seg ++ sr.1)
      match sr.2 with
      | [] => some path
      | _ :: _ => do
        let r5 ← dropWs1 sr.2
        let r6 ← dropLit "as".data r5
        let r7 ← dropWs1 r6
        match r7 with
        | d :: rest2 =>
          if isIdentStartChar d && (rest2.dropWhile isWordChar).isEmpty then
            some path
          else none
        | [] => none
  | [] => none

/-- Source: `KotlinImportGraphAnalyzer.looksInternalImport`. -/
def kotlinLooksInternalImport (importPath : String) (packagePrefixes : List String) :
    Bool :=
  packagePrefixes.any fun localPfx =>
    importPath == localPfx || strStartsWith importPath (localPfx ++ ".")

/-- The record returned by `KotlinImportGraphAnalyzer.resolveImportPath`. -/
structure KotlinResolution where
  toPath : String
  isExternal : Bool
  isUnresolved : Bool
deriving Repr, DecidableEq

/-- Source: `candidate.slice(0, candidate.lastIndexOf('.'))`, or `none` when there
is no dot. -/
def kotlinDropLastSegment (s : String) : Option String :=
  match s.data.reverse.findIdx? (· == '.') with
  | none => none
  | some k => some (String.mk (s.data.take (s.data.length - 1 - k)))

/-- The `while (candidate)` prefix-lookup loop of `resolveImportPath`; the
candidate loses at least one character per round, so `candidate.length + 1`
fuel is never exhausted. -/
def kotlinSymbolWalkGo (symbolIndex : List (String × String)) :
    Nat → String → Option String
  | 0, _ => none
  | fuel + 1, candidate =>
    if candidate = "" then none
    else
      match jsMapLookup symbolIndex candidate with
      | some p => some p
      | none =>
        match kotlinDropLastSegment candidate with
        | none => none
        | some c2 => kotlinSymbolWalkGo symbolIndex fuel c2

/-- The symbol-index prefix walk of `resolveImportPath`. -/
def kotlinSymbolWalk (symbolIndex : List (String × String)) (importPath : String) :
    Option String :=
  kotlinSymbolWalkGo symbolIndex (importPath.length + 1) importPath

/-- Source: `KotlinImportGraphAnalyzer.resolveImportPath`. -/
def kotlinResolveImportPath (importPath : String)
    (symbolIndex : List (String × String))
    (packageIndex : List (String × List String))
    (packagePrefixes : List String) : KotlinResolution :=
  if strEndsWith importPath ".*" then
    let importedPackage := strDropRight importPath 2
    let packageTargets := (jsMapLookup packageIndex importedPackage).getD []
    match packageTargets with
    | t :: _ => ⟨t, false, false⟩
    | [] =>
      let looksInternal := kotlinLooksInternalImport importedPackage packagePrefixes
      ⟨importPath, !looksInternal, looksInternal⟩
  else
    match kotlinSymbolWalk symbolIndex importPath with
    | some p => ⟨p, false, false⟩
    | none =>
      let looksInternal := kotlinLooksInternalImport importPath packagePrefixes
      ⟨importPath, !looksInternal, looksInternal⟩

/-- Source: `KotlinImportGraphAnalyzer.parseImports`. -/
def kotlinParseImports (content fromPath : String)
    (symbolIndex : List (String × String))
    (packageIndex : List (String × List String))
    (packagePrefixes : List String) : List Dependency :=
  let lines := splitOnChar content '\n'
  let sanitizedLines := kotlinSanitizeLinesForParsing content
  (lines.zip sanitizedLines).enum.flatMap fun e =>
    let i := e.1
    let originalLine := e.2.1
    let cleanedLine := trimJs e.2.2
    if cleanedLine = "" || strStartsWith cleanedLine "package " then []
    else
      match kotlinMatchImport cleanedLine with
      | none => []
      | some importPath =>
        let resolved :=
          kotlinResolveImportPath importPath symbolIndex packageIndex packagePrefixes
        [⟨fromPath, resolved.toPath, i + 1, trimJs originalLine,
          resolved.isExternal, resolved.isUnresolved⟩]

/-! ## Swift analyzer (`languages/swift/analyzer.ts`) -/

/-- Scanner for `/^\s*import\s+([A-Za-z_][A-Za-z0-9_]*)/` (not anchored at
the end): the captured module name. -/
def swiftMatchImport (line : String) : Option String := do
  let r1 ← dropLit "import".data (line.data.dropWhile jsIsSpace)
  let r2 ← dropWs1 r1
  match r2 with
  | c :: rest =>
    if isIdentStartChar c then some (String.mk (c :: rest.takeWhile isWordChar))
    else none
  | [] => none

/-- Source: `SwiftImportGraphAnalyzer.parseImports`. -/
def swiftParseImports (content fromPath : String)
    (localModuleIndex : List (String × String)) : List Dependency :=
  (splitOnChar content '\n').enum.flatMap fun e =>
    let i := e.1
    let line := e.2
    match swiftMatchImport line with
    | none => []
    | some importedModule =>
      match jsMapLookup localModuleIndex importedModule with
      | some localTarget => [⟨fromPath, localTarget, i + 1, trimJs line, false, false⟩]
      | none => [⟨fromPath, importedModule, i + 1, trimJs line, true, false⟩]

/-! ## TypeScript analyzer (`analyzer.ts`) -/

/-- The dependency record constructed by the TypeScript/JavaScript
`ImportGraphAnalyzer.analyzeFile`: the optional `isExternal`/`isUnresolved`
flags are never set there (JS `undefined`, falsy everywhere they are read),
so both are `false`. -/
def tsDependency (fromPath toPath : String) (importLine : Nat)
    (importStatement : String) : Dependency :=
  ⟨fromPath, toPath, importLine, importStatement, false, false⟩

/-! ## Helper lemmas about the rule-engine checks -/

/-- Shape of the violations produced by `checkUnresolvedImports`. -/
theorem mem_checkUnresolvedImports {modules : List Module} {v : Violation}
    (hv : v ∈ checkUnresolvedImports modules) :
    ∃ m ∈ modules, ∃ dep ∈ m.dependencies,
      dep.isExternal = false ∧ dep.isUnresolved = true ∧
      v = unresolvedImportViolation m dep := by
  simp only [checkUnresolvedImports, List.mem_flatMap, List.mem_filterMap] at hv
  obtain ⟨m, hm, dep, hdep, hsome⟩ := hv
  split at hsome
  · simp at hsome
  · next hcond =>
    simp only [Bool.or_eq_true, Bool.not_eq_true', not_or] at hcond
    rcases Option.some.inj hsome with rfl
    exact ⟨m, hm, dep, hdep, by simpa using hcond.1, by simpa using hcond.2, rfl⟩

/-- If no dependency of any module is flagged unresolved, the
unresolved-import check reports nothing. -/
theorem checkUnresolvedImports_eq_nil {modules : List Module}
    (h : ∀ m ∈ modules, ∀ dep ∈ m.dependencies, dep.isUnresolved = false) :
    checkUnresolvedImports modules = [] := by
  simp only [checkUnresolvedImports]
  rw [List.flatMap_eq_nil_iff]
  intro m hm
  rw [List.filterMap_eq_nil_iff]
  intro dep hdep
  simp [h m hm dep hdep]

/-- Every violation of `checkUnresolvedImports` carries the
`unresolved-import` rule id. -/
theorem checkUnresolvedImports_ruleId {modules : List Module} {v : Violation}
    (hv : v ∈ checkUnresolvedImports modules) : v.ruleId = "unresolved-import" := by
  obtain ⟨m, _, dep, _, _, _, rfl⟩ := mem_checkUnresolvedImports hv
  rfl

/-- Every violation of `checkLayerBoundaries` carries the
`dependency-direction` rule id. -/
theorem checkLayerBoundaries_ruleId {layers : List LayerDefinition}
    {modules : List Module} {v : Violation}
    (hv : v ∈ checkLayerBoundaries layers modules) :
    v.ruleId = "dependency-direction" := by
  simp only [checkLayerBoundaries, List.mem_flatMap] at hv
  obtain ⟨m, _, hv⟩ := hv
  split at hv
  · simp at hv
  · split at hv
    · simp at hv
    · split at hv
      · simp at hv
      · simp only [List.mem_filterMap] at hv
        obtain ⟨dep, _, hsome⟩ := hv
        split at hsome
        · simp at hsome
        · split at hsome
          · simp at hsome
          · split at hsome
            · simp at hsome
            · split at hsome
              · simp at hsome
              · split at hsome
                · simp at hsome
                · split at hsome
                  · simp at hsome
                  · rcases Option.some.inj hsome with rfl; rfl

/-- Every violation of `checkCircularDependencies` carries the
`circular-dependency` rule id. -/
theorem checkCircularDependencies_ruleId {modules : List Module} {v : Violation}
    (hv : v ∈ checkCircularDependencies modules) :
    v.ruleId = "circular-dependency" := by
  simp only [checkCircularDependencies, cyclesToViolations, List.mem_flatMap] at hv
  obtain ⟨cycle, _, hv⟩ := hv
  split at hv
  · split at hv
    · simp only [List.mem_singleton] at hv; subst hv; rfl
    · simp at hv
  · simp at hv

/-- Every violation of `checkBusinessLogicPlacement` carries the
`business-logic-placement` rule id. -/
theorem checkBusinessLogicPlacement_ruleId {modules : List Module} {v : Violation}
    (hv : v ∈ checkBusinessLogicPlacement modules) :
    v.ruleId = "business-logic-placement" := by
  simp only [checkBusinessLogicPlacement, List.mem_flatMap] at hv
  obtain ⟨m, _, hv⟩ := hv
  split at hv
  · simp only [List.mem_filterMap] at hv
    obtain ⟨e, _, hsome⟩ := hv
    split at hsome
    · rcases Option.some.inj hsome with rfl; rfl
    · simp at hsome
  · simp at hv

/-- Every violation of `checkKotlinArchitectureAntiPatterns` carries the
`kotlin-architecture-anti-pattern` rule id. -/
theorem checkKotlinArchitectureAntiPatterns_ruleId {modules : List Module}
    {v : Violation} (hv : v ∈ checkKotlinArchitectureAntiPatterns modules) :
    v.ruleId = "kotlin-architecture-anti-pattern" := by
  simp only [checkKotlinArchitectureAntiPatterns, List.mem_flatMap] at hv
  obtain ⟨m, _, dep, _, hv⟩ := hv
  simp only [List.mem_append] at hv
  rcases hv with (hv | hv) | hv <;>
    · split at hv
      · split at hv
        · simp only [List.mem_singleton] at hv; subst hv; rfl
        · simp at hv
      · simp at hv

/-- Source: `assignLayersToModules` only sets the `layer` field: path,
dependencies and exports are preserved module-by-module. -/
theorem assignLayersToModules_shape {layers : List LayerDefinition}
    {modules : List Module} {m' : Module}
    (hm' : m' ∈ assignLayersToModules layers modules) :
    ∃ m ∈ modules, m'.path = m.path ∧ m'.dependencies = m.dependencies ∧
      m'.exports = m.exports := by
  simp only [assignLayersToModules, List.mem_map] at hm'
  obtain ⟨m, hm, heq⟩ := hm'
  refine ⟨m, hm, ?_⟩
  split at heq <;> subst heq <;> simp

/-- Source: `analyze` unfolded (definitional). -/
theorem analyze_violations_decomp (cfg : ArchitectureConfig) (modules : List Module) :
    (analyze cfg modules).violations =
      checkUnresolvedImports (assignLayersToModules cfg.layers modules) ++
      (if ruleEnabled cfg.rules (·.enforceLayerBoundaries) then
        checkLayerBoundaries cfg.layers (assignLayersToModules cfg.layers modules)
      else []) ++
      (if ruleEnabled cfg.rules (·.preventCircularDependencies) then
        checkCircularDependencies (assignLayersToModules cfg.layers modules)
      else []) ++
      (if ruleEnabled cfg.rules (·.businessLogicInDomain) then
        checkBusinessLogicPlacement (assignLayersToModules cfg.layers modules)
      else []) ++
      (if cfg.language == Language.kotlin then
        checkKotlinArchitectureAntiPatterns (assignLayersToModules cfg.layers modules)
      else []) :=
  rfl

/-- Filtering away a rule id empties a list of violations that all carry it. -/
theorem filter_neq_of_all_eq {l : List Violation} {r : String}
    (h : ∀ v ∈ l, v.ruleId = r) :
    l.filter (fun v => v.ruleId != r) = [] := by
  rw [List.filter_eq_nil_iff]
  intro v hv
  simp [h v hv]

/-- Filtering away a rule id keeps a list of violations that all carry a
different one. -/
theorem filter_neq_of_all_eq_other {l : List Violation} {r r' : String}
    (hne : r' ≠ r) (h : ∀ v ∈ l, v.ruleId = r') :
    l.filter (fun v => v.ruleId != r) = l := by
  rw [List.filter_eq_self]
  intro v hv
  simp [h v hv, hne]

/-- Config with the `enforceLayerBoundaries` flag set. -/
def withEnforce (cfg : ArchitectureConfig) (b : Bool) : ArchitectureConfig :=
  { cfg with rules := some { cfg.rules.getD {} with enforceLayerBoundaries := some b } }

/-- Config with the `preventCircularDependencies` flag set. -/
def withCircular (cfg : ArchitectureConfig) (b : Bool) : ArchitectureConfig :=
  { cfg with rules := some { cfg.rules.getD {} with preventCircularDependencies := some b } }

/-- Config with the `businessLogicInDomain` flag set. -/
def withBusiness (cfg : ArchitectureConfig) (b : Bool) : ArchitectureConfig :=
  { cfg with rules := some { cfg.rules.getD {} with businessLogicInDomain := some b } }

/-- C8 (amended): the three checks that have config flags —
dependency-direction via `enforceLayerBoundaries`, circular-dependency via
`preventCircularDependencies`, business-logic-placement via
`businessLogicInDomain` — are each independently toggleable: disabling the
flag removes exactly that check's violations from the `analyze` output and
leaves every other violation unchanged.  (The unresolved-import check has
no flag, and the Kotlin anti-pattern check is keyed on the configured
language; see the counterexample.) -/
theorem c8_rule_toggles_amended (cfg : ArchitectureConfig) (modules : List Module) :
    (analyze (withEnforce cfg false) modules).violations =
      ((analyze (withEnforce cfg true) modules).violations).filter
        (fun v => v.ruleId != "dependency-direction") ∧
    (analyze (withCircular cfg false) modules).violations =
      ((analyze (withCircular cfg true) modules).violations).filter
        (fun v => v.ruleId != "circular-dependency") ∧
    (analyze (withBusiness cfg false) modules).violations =
      ((analyze (withBusiness cfg true) modules).violations).filter
        (fun v => v.ruleId != "business-logic-placement") := by
  refine ⟨?_, ?_, ?_⟩
  · rw [analyze_violations_decomp, analyze_violations_decomp]
    have h1 : ruleEnabled (withEnforce cfg false).rules (·.enforceLayerBoundaries) = false := rfl
    have h2 : ruleEnabled (withEnforce cfg true).rules (·.enforceLayerBoundaries) = true := rfl
    have h3 : ∀ b, ruleEnabled (withEnforce cfg b).rules (·.preventCircularDependencies) =
        ruleEnabled cfg.rules (·.preventCircularDependencies) := by
      intro b; cases hr : cfg.rules <;> simp [withEnforce, ruleEnabled, hr]
    have h4 : ∀ b, ruleEnabled (withEnforce cfg b).rules (·.businessLogicInDomain) =
        ruleEnabled cfg.rules (·.businessLogicInDomain) := by
      intro b; cases hr : cfg.rules <;> simp [withEnforce, ruleEnabled, hr]
    have h5 : ∀ b : Bool, (withEnforce cfg b).layers = cfg.layers := fun _ => rfl
    have h6 : ∀ b : Bool, (withEnforce cfg b).language = cfg.language := fun _ => rfl
    have hq0 : (checkLayerBoundaries cfg.layers (assignLayersToModules cfg.layers modules)).filter
        (fun v => v.ruleId != "dependency-direction") = [] :=
      filter_neq_of_all_eq (fun v hv => checkLayerBoundaries_ruleId hv)
    have hq1 : (checkUnresolvedImports (assignLayersToModules cfg.layers modules)).filter
        (fun v => v.ruleId != "dependency-direction") = checkUnresolvedImports (assignLayersToModules cfg.layers modules) :=
      filter_neq_of_all_eq_other (by decide) (fun v hv => checkUnresolvedImports_ruleId hv)
    have hq2 : (checkCircularDependencies (assignLayersToModules cfg.layers modules)).filter
        (fun v => v.ruleId != "dependency-direction") = checkCircularDependencies (assignLayersToModules cfg.layers modules) :=
      filter_neq_of_all_eq_other (by decide) (fun v hv => checkCircularDependencies_ruleId hv)
    have hq3 : (checkBusinessLogicPlacement (assignLayersToModules cfg.layers modules)).filter
        (fun v => v.ruleId != "dependency-direction") = checkBusinessLogicPlacement (assignLayersToModules cfg.layers modules) :=
      filter_neq_of_all_eq_other (by decide) (fun v hv => checkBusinessLogicPlacement_ruleId hv)
    have hq4 : (checkKotlinArchitectureAntiPatterns (assignLayersToModules cfg.layers modules)).filter
        (fun v => v.ruleId != "dependency-direction") = checkKotlinArchitectureAntiPatterns (assignLayersToModules cfg.layers modules) :=
      filter_neq_of_all_eq_other (by decide) (fun v hv => checkKotlinArchitectureAntiPatterns_ruleId hv)
    cases hc : ruleEnabled cfg.rules (·.preventCircularDependencies) <;>
      cases hb : ruleEnabled cfg.rules (·.businessLogicInDomain) <;>
      cases hl : cfg.language == Language.kotlin <;>
      simp [h1, h2, h3, h4, h5, h6, hc, hb, hl, List.filter_append, hq0, hq1, hq2, hq3, hq4]
  · rw [analyze_violations_decomp, analyze_violations_decomp]
    have h1 : ruleEnabled (withCircular cfg false).rules (·.preventCircularDependencies) = false := rfl
    have h2 : ruleEnabled (withCircular cfg true).rules (·.preventCircularDependencies) = true := rfl
    have h3 : ∀ b, ruleEnabled (withCircular cfg b).rules (·.enforceLayerBoundaries) =
        ruleEnabled cfg.rules (·.enforceLayerBoundaries) := by
      intro b; cases hr : cfg.rules <;> simp [withCircular, ruleEnabled, hr]
    have h4 : ∀ b, ruleEnabled (withCircular cfg b).rules (·.businessLogicInDomain) =
        ruleEnabled cfg.rules (·.businessLogicInDomain) := by
      intro b; cases hr : cfg.rules <;> simp [withCircular, ruleEnabled, hr]
    have h5 : ∀ b : Bool, (withCircular cfg b).layers = cfg.layers := fun _ => rfl
    have h6 : ∀ b : Bool, (withCircular cfg b).language = cfg.language := fun _ => rfl
    have hq0 : (checkCircularDependencies (assignLayersToModules cfg.layers modules)).filter
        (fun v => v.ruleId != "circular-dependency") = [] :=
      filter_neq_of_all_eq (fun v hv => checkCircularDependencies_ruleId hv)
    have hq1 : (checkUnresolvedImports (assignLayersToModules cfg.layers modules)).filter
        (fun v => v.ruleId != "circular-dependency") = checkUnresolvedImports (assignLayersToModules cfg.layers modules) :=
      filter_neq_of_all_eq_other (by decide) (fun v hv => checkUnresolvedImports_ruleId hv)
    have hq2 : (checkLayerBoundaries cfg.layers (assignLayersToModules cfg.layers modules)).filter
        (fun v => v.ruleId != "circular-dependency") = checkLayerBoundaries cfg.layers (assignLayersToModules cfg.layers modules) :=
      filter_neq_of_all_eq_other (by decide) (fun v hv => checkLayerBoundaries_ruleId hv)
    have hq3 : (checkBusinessLogicPlacement (assignLayersToModules cfg.layers modules)).filter
        (fun v => v.ruleId != "circular-dependency") = checkBusinessLogicPlacement (assignLayersToModules cfg.layers modules) :=
      filter_neq_of_all_eq_other (by decide) (fun v hv => checkBusinessLogicPlacement_ruleId hv)
    have hq4 : (checkKotlinArchitectureAntiPatterns (assignLayersToModules cfg.layers modules)).filter
        (fun v => v.ruleId != "circular-dependency") = checkKotlinArchitectureAntiPatterns (assignLayersToModules cfg.layers modules) :=
      filter_neq_of_all_eq_other (by decide) (fun v hv => checkKotlinArchitectureAntiPatterns_ruleId hv)
    cases hc : ruleEnabled cfg.rules (·.enforceLayerBoundaries) <;>
      cases hb : ruleEnabled cfg.rules (·.businessLogicInDomain) <;>
      cases hl : cfg.language == Language.kotlin <;>
      simp [h1, h2, h3, h4, h5, h6, hc, hb, hl, List.filter_append, hq0, hq1, hq2, hq3, hq4]
  · rw [analyze_violations_decomp, analyze_violations_decomp]
    have h1 : ruleEnabled (withBusiness cfg false).rules (·.businessLogicInDomain) = false := rfl
    have h2 : ruleEnabled (withBusiness cfg true).rules (·.businessLogicInDomain) = true := rfl
    have h3 : ∀ b, ruleEnabled (withBusiness cfg b).rules (·.enforceLayerBoundaries) =
        ruleEnabled cfg.rules (·.enforceLayerBoundaries) := by
      intro b; cases hr : cfg.rules <;> simp [withBusiness, ruleEnabled, hr]
    have h4 : ∀ b, ruleEnabled (withBusiness cfg b).rules (·.preventCircularDependencies) =
        ruleEnabled cfg.rules (·.preventCircularDependencies) := by
      intro b; cases hr : cfg.rules <;> simp [withBusiness, ruleEnabled, hr]
    have h5 : ∀ b : Bool, (withBusiness cfg b).layers = cfg.layers := fun _ => rfl
    have h6 : ∀ b : Bool, (withBusiness cfg b).language = cfg.language := fun _ => rfl
    have hq0 : (checkBusinessLogicPlacement (assignLayersToModules cfg.layers modules)).filter
        (fun v => v.ruleId != "business-logic-placement") = [] :=
      filter_neq_of_all_eq (fun v hv => checkBusinessLogicPlacement_ruleId hv)
    have hq1 : (checkUnresolvedImports (assignLayersToModules cfg.layers modules)).filter
        (fun v => v.ruleId != "business-logic-placement") = checkUnresolvedImports (assignLayersToModules cfg.layers modules) :=
      filter_neq_of_all_eq_other (by decide) (fun v hv => checkUnresolvedImports_ruleId hv)
    have hq2 : (checkLayerBoundaries cfg.layers (assignLayersToModules cfg.layers modules)).filter
        (fun v => v.ruleId != "business-logic-placement") = checkLayerBoundaries cfg.layers (assignLayersToModules cfg.layers modules) :=
      filter_neq_of_all_eq_other (by decide) (fun v hv => checkLayerBoundaries_ruleId hv)
    have hq3 : (checkCircularDependencies (assignLayersToModules cfg.layers modules)).filter
        (fun v => v.ruleId != "business-logic-placement") = checkCircularDependencies (assignLayersToModules cfg.layers modules) :=
      filter_neq_of_all_eq_other (by decide) (fun v hv => checkCircularDependencies_ruleId hv)
    have hq4 : (checkKotlinArchitectureAntiPatterns (assignLayersToModules cfg.layers modules)).filter
        (fun v => v.ruleId != "business-logic-placement") = checkKotlinArchitectureAntiPatterns (assignLayersToModules cfg.layers modules) :=
      filter_neq_of_all_eq_other (by decide) (fun v hv => checkKotlinArchitectureAntiPatterns_ruleId hv)
    cases hc : ruleEnabled cfg.rules (·.enforceLayerBoundaries) <;>
      cases hb : ruleEnabled cfg.rules (·.preventCircularDependencies) <;>
      cases hl : cfg.language == Language.kotlin <;>
      simp [h1, h2, h3, h4, h5, h6, hc, hb, hl, List.filter_append, hq0, hq1, hq2, hq3, hq4]

/-- A module with one local-unresolved dependency. -/
def c8Module : Module :=
  ⟨"src/app.py", none,
    [⟨"src/app.py", "pkg.missing", 2, "import pkg.missing", false, true⟩], []⟩

/-- A config with every rules flag disabled. -/
def c8AllOff : ArchitectureConfig :=
  ⟨Language.python, [], some ⟨some false, some false, some false⟩⟩

/-- C8 (counterexample): the unresolved-import check has no config flag —
with every boolean in the `rules` record set to `false`, `analyze` still
emits the unresolved-import violation, so no flag removes that check's
violations. -/
theorem c8_counterexample :
    (analyze c8AllOff [c8Module]).violations =
      [unresolvedImportViolation c8Module
        ⟨"src/app.py", "pkg.missing", 2, "import pkg.missing", false, true⟩] := by
  decide

/-- Every dependency produced by the Swift parser has `isUnresolved = false`. -/
theorem swiftParseImports_isUnresolved_false {content fromPath : String}
    {idx : List (String × String)} :
    ∀ d ∈ swiftParseImports content fromPath idx, d.isUnresolved = false := by
  intro d hd
  simp only [swiftParseImports, List.mem_flatMap] at hd
  obtain ⟨e, _, hd⟩ := hd
  split at hd
  · simp at hd
  · split at hd <;> · simp only [List.mem_singleton] at hd; subst hd; rfl

/-- The flags of `pythonResolveDependency`: never both set, and an index
hit clears both. -/
theorem pythonResolveDependency_flags (fromPath : String) (line : Nat)
    (stmt name : String) (idx : List (String × String)) (tops : List String) :
    ((pythonResolveDependency fromPath line stmt name idx tops).isExternal = true →
      (pythonResolveDependency fromPath line stmt name idx tops).isUnresolved = false) ∧
    (∀ p, jsMapLookup idx name = some p →
      (pythonResolveDependency fromPath line stmt name idx tops).isExternal = false ∧
      (pythonResolveDependency fromPath line stmt name idx tops).isUnresolved = false) := by
  unfold pythonResolveDependency
  cases h : jsMapLookup idx name <;>
    simp [h] <;>
    cases tops.contains (pythonRootSegment name) <;> simp

/-- Every dependency produced by the from-import step is either built by
`pythonResolveDependency` or is the external record for an unresolvable
relative spec. -/
theorem mem_pythonFromImportDeps {fromPath fromModule : String}
    {idx : List (String × String)} {tops : List String} {stmt : String}
    {n : Nat} {d : Dependency}
    (hd : d ∈ pythonFromImportDeps fromPath fromModule idx tops stmt n) :
    (∃ (k : Nat) (s name : String),
      d = pythonResolveDependency fromPath k s name idx tops) ∨
    (d.isExternal = true ∧ d.isUnresolved = false) := by
  unfold pythonFromImportDeps at hd
  split at hd
  · simp at hd
  · split at hd
    · simp only [List.mem_singleton] at hd
      subst hd
      exact Or.inr ⟨rfl, rfl⟩
    · split at hd
      · simp only [List.mem_singleton] at hd
        subst hd
        exact Or.inl ⟨_, _, _, rfl⟩
      · split at hd
        · simp only [List.mem_singleton] at hd
          subst hd
          exact Or.inl ⟨_, _, _, rfl⟩
        · next heq =>
          rw [← heq, List.mem_map] at hd
          obtain ⟨name, _, rfl⟩ := hd
          exact Or.inl ⟨_, _, _, rfl⟩

/-- Every dependency produced by the Python import loop is either built by
`pythonResolveDependency` or is the external record for an unresolvable
relative spec. -/
theorem mem_pythonImportsLoop {fromPath fromModule : String}
    {idx : List (String × String)} {tops : List String} {lines : List String}
    {fuel i : Nat} {d : Dependency}
    (hd : d ∈ pythonImportsLoop fromPath fromModule idx tops lines fuel i) :
    (∃ (n : Nat) (stmt name : String),
      d = pythonResolveDependency fromPath n stmt name idx tops) ∨
    (d.isExternal = true ∧ d.isUnresolved = false) := by
  induction fuel generalizing i with
  | zero => simp [pythonImportsLoop] at hd
  | succ fuel ih =>
    rw [pythonImportsLoop] at hd
    split at hd
    · split at hd
      · exact ih hd
      · split at hd
        · rw [List.mem_append] at hd
          rcases hd with hd | hd
          · rw [List.mem_map] at hd
            obtain ⟨name, _, rfl⟩ := hd
            exact Or.inl ⟨_, _, _, rfl⟩
          · exact ih hd
        · rw [List.mem_append] at hd
          rcases hd with hd | hd
          · exact mem_pythonFromImportDeps hd
          · exact ih hd
    · simp at hd

/-- The flags of `kotlinResolveImportPath`: never both set, and a
symbol-walk hit resolves locally with both flags cleared. -/
theorem kotlinResolveImportPath_flags (ip : String)
    (symIdx : List (String × String)) (pkgIdx : List (String × List String))
    (prefs : List String) :
    ((kotlinResolveImportPath ip symIdx pkgIdx prefs).isExternal = true →
      (kotlinResolveImportPath ip symIdx pkgIdx prefs).isUnresolved = false) ∧
    (∀ p, strEndsWith ip ".*" = false → kotlinSymbolWalk symIdx ip = some p →
      kotlinResolveImportPath ip symIdx pkgIdx prefs = ⟨p, false, false⟩) := by
  unfold kotlinResolveImportPath
  constructor
  · cases hw : strEndsWith ip ".*" with
    | false =>
      cases hs : kotlinSymbolWalk symIdx ip <;>
        cases hl : kotlinLooksInternalImport ip prefs <;> simp [hw, hs, hl]
    | true =>
      cases hp : (jsMapLookup pkgIdx (strDropRight ip 2)).getD [] <;>
        cases hl : kotlinLooksInternalImport (strDropRight ip 2) prefs <;>
          simp [hw, hp, hl]
  · intro p hw hs
    simp [hw, hs]

/-- Every dependency produced by the Kotlin parser carries the flags of
`kotlinResolveImportPath` for some import path. -/
theorem mem_kotlinParseImports {content fromPath : String}
    {symIdx : List (String × String)} {pkgIdx : List (String × List String)}
    {prefs : List String} {d : Dependency}
    (hd : d ∈ kotlinParseImports content fromPath symIdx pkgIdx prefs) :
    ∃ (ip : String) (n : Nat) (stmt : String),
      d = ⟨fromPath, (kotlinResolveImportPath ip symIdx pkgIdx prefs).toPath, n,
        stmt, (kotlinResolveImportPath ip symIdx pkgIdx prefs).isExternal,
        (kotlinResolveImportPath ip symIdx pkgIdx prefs).isUnresolved⟩ := by
  simp only [kotlinParseImports, List.mem_flatMap] at hd
  obtain ⟨e, _, hd⟩ := hd
  split at hd
  · simp at hd
  · split at hd
    · simp at hd
    · simp only [List.mem_singleton] at hd
      subst hd
      exact ⟨_, _, _, rfl⟩

/-- C1: for every Dependency produced by any of the analyzers, the
`isExternal` and `isUnresolved` flags are never both set, and a target
that resolves through the local index (local-resolved) has both flags
`false`.  The TypeScript analyzer never sets either flag. -/
theorem c1_dependency_classification :
    (∀ (fromPath : String) (n : Nat) (stmt name : String)
      (idx : List (String × String)) (tops : List String),
      ((pythonResolveDependency fromPath n stmt name idx tops).isExternal = true →
        (pythonResolveDependency fromPath n stmt name idx tops).isUnresolved = false) ∧
      (∀ p, jsMapLookup idx name = some p →
        (pythonResolveDependency fromPath n stmt name idx tops).isExternal = false ∧
        (pythonResolveDependency fromPath n stmt name idx tops).isUnresolved = false)) ∧
    (∀ (content fromPath fromModule : String) (idx : List (String × String))
      (tops : List String),
      ∀ d ∈ pythonParseImports content fromPath fromModule idx tops,
        d.isExternal = true → d.isUnresolved = false) ∧
    (∀ (ip : String) (symIdx : List (String × String))
      (pkgIdx : List (String × List String)) (prefs : List String),
      ((kotlinResolveImportPath ip symIdx pkgIdx prefs).isExternal = true →
        (kotlinResolveImportPath ip symIdx pkgIdx prefs).isUnresolved = false) ∧
      (∀ p, strEndsWith ip ".*" = false → kotlinSymbolWalk symIdx ip = some p →
        kotlinResolveImportPath ip symIdx pkgIdx prefs = ⟨p, false, false⟩)) ∧
    (∀ (content fromPath : String) (symIdx : List (String × String))
      (pkgIdx : List (String × List String)) (prefs : List String),
      ∀ d ∈ kotlinParseImports content fromPath symIdx pkgIdx prefs,
        d.isExternal = true → d.isUnresolved = false) ∧
    (∀ (content fromPath : String) (idx : List (String × String)),
      ∀ d ∈ swiftParseImports content fromPath idx, d.isUnresolved = false) ∧
    (∀ (fromPath toPath : String) (n : Nat) (stmt : String),
      (tsDependency fromPath toPath n stmt).isExternal = false ∧
      (tsDependency fromPath toPath n stmt).isUnresolved = false) := by
  refine ⟨pythonResolveDependency_flags, ?_, kotlinResolveImportPath_flags, ?_,
    fun _ _ _ => swiftParseImports_isUnresolved_false, fun _ _ _ _ => ⟨rfl, rfl⟩⟩
  · intro content fromPath fromModule idx tops d hd hext
    rcases mem_pythonImportsLoop hd with ⟨n, stmt, name, rfl⟩ | ⟨_, hu⟩
    · exact (pythonResolveDependency_flags fromPath n stmt name idx tops).1 hext
    · exact hu
  · intro content fromPath symIdx pkgIdx prefs d hd hext
    obtain ⟨ip, n, stmt, rfl⟩ := mem_kotlinParseImports hd
    exact (kotlinResolveImportPath_flags ip symIdx pkgIdx prefs).1 hext

/-- Witness for C1 at concrete inputs for each analyzer. -/
theorem c1_dependency_classification_witness :
    Dependency.isUnresolved
      (pythonResolveDependency "a.py" 1 "import requests" "requests" [] []) = false ∧
    (pythonResolveDependency "a.py" 1 "import shop" "shop"
      [("shop", "shop/__init__.py")] []).isExternal = false ∧
    kotlinResolveImportPath "com.example.Foo"
      [("com.example.Foo", "com/example/Foo.kt")] [] [] =
      ⟨"com/example/Foo.kt", false, false⟩ ∧
    Dependency.isUnresolved ⟨"a.swift", "Foo", 1, "import Foo", true, false⟩ = false := by
  refine ⟨?_, ?_, ?_, ?_⟩
  · exact (c1_dependency_classification.1 "a.py" 1 "import requests" "requests" [] []).1
      (by decide)
  · exact ((c1_dependency_classification.1 "a.py" 1 "import shop" "shop"
      [("shop", "shop/__init__.py")] []).2 "shop/__init__.py" (by decide)).1
  · exact ((c1_dependency_classification.2.2.1 "com.example.Foo"
      [("com.example.Foo", "com/example/Foo.kt")] [] []).2 "com/example/Foo.kt"
      (by decide) (by decide))
  · exact c1_dependency_classification.2.2.2.2.1 "import Foo" "a.swift" []
      ⟨"a.swift", "Foo", 1, "import Foo", true, false⟩ (by decide)

/-- C6: an import whose name misses the resolution index entirely and whose
name is not covered by the recorded local prefixes is classified external
(`isExternal = true`) and never local-unresolved (`isUnresolved = false`),
in both the Python and the Kotlin resolvers. -/
theorem c6_unmatched_nonlocal_is_external :
    (∀ (fromPath : String) (n : Nat) (stmt name : String)
      (idx : List (String × String)) (tops : List String),
      jsMapLookup idx name = none →
      tops.contains (pythonRootSegment name) = false →
      pythonResolveDependency fromPath n stmt name idx tops =
        ⟨fromPath, name, n, stmt, true, false⟩) ∧
    (∀ (ip : String) (symIdx : List (String × String))
      (pkgIdx : List (String × List String)) (prefs : List String),
      strEndsWith ip ".*" = false →
      kotlinSymbolWalk symIdx ip = none →
      kotlinLooksInternalImport ip prefs = false →
      kotlinResolveImportPath ip symIdx pkgIdx prefs = ⟨ip, true, false⟩) ∧
    (∀ (ip : String) (symIdx : List (String × String))
      (pkgIdx : List (String × List String)) (prefs : List String),
      strEndsWith ip ".*" = true →
      (jsMapLookup pkgIdx (strDropRight ip 2)).getD [] = [] →
      kotlinLooksInternalImport (strDropRight ip 2) prefs = false →
      kotlinResolveImportPath ip symIdx pkgIdx prefs = ⟨ip, true, false⟩) := by
  refine ⟨?_, ?_, ?_⟩
  · intro fromPath n stmt name idx tops hidx htops
    have hmem : pythonRootSegment name ∉ tops := by simpa using htops
    unfold pythonResolveDependency
    simp [hidx, hmem]
  · intro ip symIdx pkgIdx prefs hw hs hl
    unfold kotlinResolveImportPath
    simp [hw, hs, hl]
  · intro ip symIdx pkgIdx prefs hw hp hl
    unfold kotlinResolveImportPath
    simp [hw, hp, hl]

/-- Witness for C6 at concrete inputs. -/
theorem c6_unmatched_nonlocal_is_external_witness :
    pythonResolveDependency "a.py" 1 "import requests" "requests"
      [("shop", "shop/__init__.py")] ["shop"] =
      ⟨"a.py", "requests", 1, "import requests", true, false⟩ ∧
    kotlinResolveImportPath "kotlinx.coroutines.Dispatchers" [] []
      ["com.example"] = ⟨"kotlinx.coroutines.Dispatchers", true, false⟩ ∧
    kotlinResolveImportPath "kotlinx.coroutines.*" [] [] ["com.example"] =
      ⟨"kotlinx.coroutines.*", true, false⟩ :=
  ⟨c6_unmatched_nonlocal_is_external.1 "a.py" 1 "import requests" "requests"
      [("shop", "shop/__init__.py")] ["shop"] (by decide) (by decide),
    c6_unmatched_nonlocal_is_external.2.1 "kotlinx.coroutines.Dispatchers" [] []
      ["com.example"] (by decide) (by decide) (by decide),
    c6_unmatched_nonlocal_is_external.2.2 "kotlinx.coroutines.*" [] []
      ["com.example"] (by decide) (by decide) (by decide)⟩

/-- C10: the Swift analyzer never flags a dependency as unresolved (each
parsed import is local-resolved or external), so analyzing modules
whose dependencies all come from the Swift parser can never produce an
`unresolved-import` violation. -/
theorem c10_swift_never_unresolved :
    (∀ (content fromPath : String) (idx : List (String × String)),
      ∀ d ∈ swiftParseImports content fromPath idx, d.isUnresolved = false) ∧
    (∀ (cfg : ArchitectureConfig) (modules : List Module),
      (∀ m ∈ modules, ∀ d ∈ m.dependencies, d.isUnresolved = false) →
      (analyze cfg modules).violations.filter
        (fun v => v.ruleId == "unresolved-import") = []) := by
  constructor
  · intro content fromPath idx d hd
    simp only [swiftParseImports, List.mem_flatMap] at hd
    obtain ⟨e, _, hd⟩ := hd
    split at hd
    · simp at hd
    · split at hd <;> · simp only [List.mem_singleton] at hd; subst hd; rfl
  · intro cfg modules h
    rw [analyze_violations_decomp]
    have hM : ∀ m ∈ assignLayersToModules cfg.layers modules,
        ∀ d ∈ m.dependencies, d.isUnresolved = false := by
      intro m' hm' d hd
      obtain ⟨m, hm, _, hdeps, _⟩ := assignLayersToModules_shape hm'
      exact h m hm d (hdeps ▸ hd)
    have hf : ∀ (l : List Violation) (r : String), (∀ v ∈ l, v.ruleId = r) →
        r ≠ "unresolved-import" →
        l.filter (fun v => v.ruleId == "unresolved-import") = [] := by
      intro l r hall hne
      rw [List.filter_eq_nil_iff]
      intro v hv
      simp [hall v hv, hne]
    have h1 := hf
      (checkLayerBoundaries cfg.layers (assignLayersToModules cfg.layers modules))
      "dependency-direction" (fun v hv => checkLayerBoundaries_ruleId hv) (by decide)
    have h2 := hf
      (checkCircularDependencies (assignLayersToModules cfg.layers modules))
      "circular-dependency" (fun v hv => checkCircularDependencies_ruleId hv)
      (by decide)
    have h3 := hf
      (checkBusinessLogicPlacement (assignLayersToModules cfg.layers modules))
      "business-logic-placement"
      (fun v hv => checkBusinessLogicPlacement_ruleId hv) (by decide)
    have h4 := hf
      (checkKotlinArchitectureAntiPatterns (assignLayersToModules cfg.layers modules))
      "kotlin-architecture-anti-pattern"
      (fun v hv => checkKotlinArchitectureAntiPatterns_ruleId hv) (by decide)
    rw [checkUnresolvedImports_eq_nil hM]
    simp [apply_ite (List.filter (fun v : Violation => v.ruleId == "unresolved-import")),
      List.filter_append, h1, h2, h3, h4]

/-- Witness for C10 at a concrete Swift file and a concrete analysis run. -/
theorem c10_swift_never_unresolved_witness :
    Dependency.isUnresolved ⟨"a.swift", "Foo", 1, "import Foo", true, false⟩ = false ∧
    (analyze ⟨Language.swift, [], none⟩
      [⟨"App/main.swift", none,
        [⟨"App/main.swift", "Foundation", 1, "import Foundation", true, false⟩], []⟩]
      ).violations.filter (fun v => v.ruleId == "unresolved-import") = [] :=
  ⟨c10_swift_never_unresolved.1 "import Foo" "a.swift" []
      ⟨"a.swift", "Foo", 1, "import Foo", true, false⟩ (by decide),
    c10_swift_never_unresolved.2 ⟨Language.swift, [], none⟩
      [⟨"App/main.swift", none,
        [⟨"App/main.swift", "Foundation", 1, "import Foundation", true, false⟩], []⟩]
      (by decide)⟩

/-! ## Layer-assignment tie-breaking (C2) -/

/-- The comparison key of a layer definition: effective precedence
(`precedence ?? -1`) and pattern specificity after slash-normalization. -/
def layerKey (ld : LayerDefinition) : Int × Nat :=
  (layerEffPrec ld, getPatternSpecificity (normalizeSlashes ld.pattern))

/-- Strictly better key: higher precedence, or equal precedence and higher
specificity. -/
def keyBetter (a b : Int × Nat) : Prop :=
  b.1 < a.1 ∨ (a.1 = b.1 ∧ b.2 < a.2)

/-- Candidate `(i, a)` wins against candidate `(j, b)`: strictly better
key, or equal key and declared no later. -/
def beatsP (i : Nat) (a : LayerDefinition) (j : Nat) (b : LayerDefinition) : Prop :=
  keyBetter (layerKey a) (layerKey b) ∨ (layerKey a = layerKey b ∧ i ≤ j)

/-- A pending entry whose pattern matches the (already normalized) path. -/
def matchedIn (path : String) (pending : List (Nat × LayerDefinition))
    (j : Nat) (ld : LayerDefinition) : Prop :=
  (j, ld) ∈ pending ∧ matchGlob path (normalizeSlashes ld.pattern) = true

theorem beatsP_refl (i : Nat) (a : LayerDefinition) : beatsP i a i a :=
  Or.inr ⟨rfl, le_refl i⟩

theorem beatsP_trans {i j k : Nat} {a b c : LayerDefinition}
    (h1 : beatsP i a j b) (h2 : beatsP j b k c) : beatsP i a k c := by
  rcases h1 with h1 | ⟨h1, hij⟩ <;> rcases h2 with h2 | ⟨h2, hjk⟩
  · left; unfold keyBetter at h1 h2 ⊢; omega
  · left; rw [← h2]; exact h1
  · left; rw [h1]; exact h2
  · exact Or.inr ⟨h1.trans h2, hij.trans hjk⟩

theorem beatsP_install_gt {cand sel : LayerDefinition} {j i : Nat}
    (h : layerEffPrec cand > layerEffPrec sel) : beatsP j cand i sel := by
  unfold beatsP keyBetter layerKey
  simp only [Prod.mk.injEq]
  omega

theorem beatsP_install_spec {cand sel : LayerDefinition} {j i : Nat}
    (hp : layerEffPrec cand = layerEffPrec sel)
    (hs : getPatternSpecificity (normalizeSlashes cand.pattern) >
      getPatternSpecificity (normalizeSlashes sel.pattern)) :
    beatsP j cand i sel := by
  unfold beatsP keyBetter layerKey
  simp only [Prod.mk.injEq]
  omega

theorem beatsP_install_order {cand sel : LayerDefinition} {j i : Nat}
    (hp : layerEffPrec cand = layerEffPrec sel)
    (hs : getPatternSpecificity (normalizeSlashes cand.pattern) =
      getPatternSpecificity (normalizeSlashes sel.pattern))
    (ho : j < i) : beatsP j cand i sel := by
  unfold beatsP keyBetter layerKey
  simp only [Prod.mk.injEq]
  omega

theorem beatsP_keep_preclt {cand sel : LayerDefinition} {j i : Nat}
    (h1 : ¬ layerEffPrec cand > layerEffPrec sel)
    (h2 : ¬ layerEffPrec cand = layerEffPrec sel) : beatsP i sel j cand := by
  unfold beatsP keyBetter layerKey
  simp only [Prod.mk.injEq]
  omega

theorem beatsP_keep_eq {cand sel : LayerDefinition} {j i : Nat}
    (h2 : layerEffPrec cand = layerEffPrec sel)
    (h3 : ¬ getPatternSpecificity (normalizeSlashes cand.pattern) >
      getPatternSpecificity (normalizeSlashes sel.pattern))
    (h4 : ¬ (getPatternSpecificity (normalizeSlashes cand.pattern) =
      getPatternSpecificity (normalizeSlashes sel.pattern) ∧ j < i)) :
    beatsP i sel j cand := by
  unfold beatsP keyBetter layerKey
  simp only [Prod.mk.injEq]
  omega

/-- Invariant of the selection loop started in a `some` state: the result
is a `some` state that stores the specificity of its own pattern, is the
initial candidate or a matched pending entry, and beats the initial
candidate as well as every matched pending entry. -/
theorem selectLoop_some_spec (path : String)
    (pending : List (Nat × LayerDefinition)) :
    ∀ (ld0 : LayerDefinition) (i0 : Nat),
    ∃ ld i,
      selectLoop path pending
        (some (ld0, getPatternSpecificity (normalizeSlashes ld0.pattern), i0)) =
        some (ld, getPatternSpecificity (normalizeSlashes ld.pattern), i) ∧
      ((ld = ld0 ∧ i = i0) ∨ matchedIn path pending i ld) ∧
      (∀ j ld', ((ld' = ld0 ∧ j = i0) ∨ matchedIn path pending j ld') →
        beatsP i ld j ld') := by
  induction pending with
  | nil =>
    intro ld0 i0
    refine ⟨ld0, i0, rfl, Or.inl ⟨rfl, rfl⟩, ?_⟩
    rintro j ld' (⟨rfl, rfl⟩ | ⟨hmem, _⟩)
    · exact beatsP_refl _ _
    · exact absurd hmem (List.not_mem_nil _)
  | cons hd rest ih =>
    intro ld0 i0
    obtain ⟨j1, cand⟩ := hd
    by_cases hm : matchGlob path (normalizeSlashes cand.pattern) = true
    · rw [selectLoop, if_pos hm]
      by_cases hc1 : layerEffPrec cand > layerEffPrec ld0
      · rw [if_pos hc1]
        obtain ⟨ld, i, heq, hmem, hbeats⟩ := ih cand j1
        refine ⟨ld, i, heq, ?_, ?_⟩
        · rcases hmem with ⟨rfl, rfl⟩ | ⟨hmm, hmt⟩
          · exact Or.inr ⟨List.mem_cons_self _ _, hm⟩
          · exact Or.inr ⟨List.mem_cons_of_mem _ hmm, hmt⟩
        · rintro j ld' (⟨rfl, rfl⟩ | ⟨hjmem, hjmatch⟩)
          · exact beatsP_trans (hbeats _ _ (Or.inl ⟨rfl, rfl⟩))
              (beatsP_install_gt hc1)
          · rcases List.mem_cons.mp hjmem with hhead | htail
            · obtain ⟨rfl, rfl⟩ := Prod.mk.injEq .. |>.mp hhead
              exact hbeats _ _ (Or.inl ⟨rfl, rfl⟩)
            · exact hbeats j ld' (Or.inr ⟨htail, hjmatch⟩)
      · rw [if_neg hc1]
        by_cases hc2 : layerEffPrec cand = layerEffPrec ld0
        · rw [if_pos hc2]
          by_cases hc3 : getPatternSpecificity (normalizeSlashes cand.pattern) >
              getPatternSpecificity (normalizeSlashes ld0.pattern)
          · rw [if_pos hc3]
            obtain ⟨ld, i, heq, hmem, hbeats⟩ := ih cand j1
            refine ⟨ld, i, heq, ?_, ?_⟩
            · rcases hmem with ⟨rfl, rfl⟩ | ⟨hmm, hmt⟩
              · exact Or.inr ⟨List.mem_cons_self _ _, hm⟩
              · exact Or.inr ⟨List.mem_cons_of_mem _ hmm, hmt⟩
            · rintro j ld' (⟨rfl, rfl⟩ | ⟨hjmem, hjmatch⟩)
              · exact beatsP_trans (hbeats _ _ (Or.inl ⟨rfl, rfl⟩))
                  (beatsP_install_spec hc2 hc3)
              · rcases List.mem_cons.mp hjmem with hhead | htail
                · obtain ⟨rfl, rfl⟩ := Prod.mk.injEq .. |>.mp hhead
                  exact hbeats _ _ (Or.inl ⟨rfl, rfl⟩)
                · exact hbeats j ld' (Or.inr ⟨htail, hjmatch⟩)
          · rw [if_neg hc3]
            by_cases hc4 : getPatternSpecificity (normalizeSlashes cand.pattern) =
                getPatternSpecificity (normalizeSlashes ld0.pattern) ∧ j1 < i0
            · rw [if_pos hc4]
              obtain ⟨ld, i, heq, hmem, hbeats⟩ := ih cand j1
              refine ⟨ld, i, heq, ?_, ?_⟩
              · rcases hmem with ⟨rfl, rfl⟩ | ⟨hmm, hmt⟩
                · exact Or.inr ⟨List.mem_cons_self _ _, hm⟩
                · exact Or.inr ⟨List.mem_cons_of_mem _ hmm, hmt⟩
              · rintro j ld' (⟨rfl, rfl⟩ | ⟨hjmem, hjmatch⟩)
                · exact beatsP_trans (hbeats _ _ (Or.inl ⟨rfl, rfl⟩))
                    (beatsP_install_order hc2 hc4.1 hc4.2)
                · rcases List.mem_cons.mp hjmem with hhead | htail
                  · obtain ⟨rfl, rfl⟩ := Prod.mk.injEq .. |>.mp hhead
                    exact hbeats _ _ (Or.inl ⟨rfl, rfl⟩)
                  · exact hbeats j ld' (Or.inr ⟨htail, hjmatch⟩)
            · rw [if_neg hc4]
              obtain ⟨ld, i, heq, hmem, hbeats⟩ := ih ld0 i0
              refine ⟨ld, i, heq, ?_, ?_⟩
              · rcases hmem with ⟨rfl, rfl⟩ | ⟨hmm, hmt⟩
                · exact Or.inl ⟨rfl, rfl⟩
                · exact Or.inr ⟨List.mem_cons_of_mem _ hmm, hmt⟩
              · rintro j ld' (⟨rfl, rfl⟩ | ⟨hjmem, hjmatch⟩)
                · exact hbeats _ _ (Or.inl ⟨rfl, rfl⟩)
                · rcases List.mem_cons.mp hjmem with hhead | htail
                  · obtain ⟨rfl, rfl⟩ := Prod.mk.injEq .. |>.mp hhead
                    exact beatsP_trans (hbeats _ _ (Or.inl ⟨rfl, rfl⟩))
                      (beatsP_keep_eq hc2 hc3 hc4)
                  · exact hbeats j ld' (Or.inr ⟨htail, hjmatch⟩)
        · rw [if_neg hc2]
          obtain ⟨ld, i, heq, hmem, hbeats⟩ := ih ld0 i0
          refine ⟨ld, i, heq, ?_, ?_⟩
          · rcases hmem with ⟨rfl, rfl⟩ | ⟨hmm, hmt⟩
            · exact Or.inl ⟨rfl, rfl⟩
            · exact Or.inr ⟨List.mem_cons_of_mem _ hmm, hmt⟩
          · rintro j ld' (⟨rfl, rfl⟩ | ⟨hjmem, hjmatch⟩)
            · exact hbeats _ _ (Or.inl ⟨rfl, rfl⟩)
            · rcases List.mem_cons.mp hjmem with hhead | htail
              · obtain ⟨rfl, rfl⟩ := Prod.mk.injEq .. |>.mp hhead
                exact beatsP_trans (hbeats _ _ (Or.inl ⟨rfl, rfl⟩))
                  (beatsP_keep_preclt hc1 hc2)
              · exact hbeats j ld' (Or.inr ⟨htail, hjmatch⟩)
    · rw [selectLoop, if_neg hm]
      obtain ⟨ld, i, heq, hmem, hbeats⟩ := ih ld0 i0
      refine ⟨ld, i, heq, ?_, ?_⟩
      · rcases hmem with ⟨rfl, rfl⟩ | ⟨hmm, hmt⟩
        · exact Or.inl ⟨rfl, rfl⟩
        · exact Or.inr ⟨List.mem_cons_of_mem _ hmm, hmt⟩
      · rintro j ld' (⟨rfl, rfl⟩ | ⟨hjmem, hjmatch⟩)
        · exact hbeats _ _ (Or.inl ⟨rfl, rfl⟩)
        · rcases List.mem_cons.mp hjmem with hhead | htail
          · obtain ⟨rfl, rfl⟩ := Prod.mk.injEq .. |>.mp hhead
            exact absurd hjmatch hm
          · exact hbeats j ld' (Or.inr ⟨htail, hjmatch⟩)

/-- Invariant of the selection loop started with no candidate: either no
pending entry matches and the result is `none`, or the result is a matched
pending entry beating every matched pending entry. -/
theorem selectLoop_none_spec (path : String)
    (pending : List (Nat × LayerDefinition)) :
    (selectLoop path pending none = none ∧
      ∀ j ld', (j, ld') ∈ pending →
        matchGlob path (normalizeSlashes ld'.pattern) ≠ true) ∨
    (∃ ld i,
      selectLoop path pending none =
        some (ld, getPatternSpecificity (normalizeSlashes ld.pattern), i) ∧
      matchedIn path pending i ld ∧
      ∀ j ld', matchedIn path pending j ld' → beatsP i ld j ld') := by
  induction pending with
  | nil =>
    left
    exact ⟨rfl, by simp⟩
  | cons hd rest ih =>
    obtain ⟨j1, cand⟩ := hd
    by_cases hm : matchGlob path (normalizeSlashes cand.pattern) = true
    · right
      rw [selectLoop, if_pos hm]
      obtain ⟨ld, i, heq, hmem, hbeats⟩ := selectLoop_some_spec path rest cand j1
      refine ⟨ld, i, heq, ?_, ?_⟩
      · rcases hmem with ⟨rfl, rfl⟩ | ⟨hmm, hmt⟩
        · exact ⟨List.mem_cons_self _ _, hm⟩
        · exact ⟨List.mem_cons_of_mem _ hmm, hmt⟩
      · rintro j ld' ⟨hjmem, hjmatch⟩
        rcases List.mem_cons.mp hjmem with hhead | htail
        · obtain ⟨rfl, rfl⟩ := Prod.mk.injEq .. |>.mp hhead
          exact hbeats _ _ (Or.inl ⟨rfl, rfl⟩)
        · exact hbeats j ld' (Or.inr ⟨htail, hjmatch⟩)
    · rw [selectLoop, if_neg hm]
      rcases ih with ⟨hnone, hall⟩ | ⟨ld, i, heq, hmem, hbeats⟩
      · left
        refine ⟨hnone, ?_⟩
        rintro j ld' hj
        rcases List.mem_cons.mp hj with hhead | htail
        · obtain ⟨rfl, rfl⟩ := Prod.mk.injEq .. |>.mp hhead
          exact hm
        · exact hall j ld' htail
      · right
        refine ⟨ld, i, heq, ⟨List.mem_cons_of_mem _ hmem.1, hmem.2⟩, ?_⟩
        rintro j ld' ⟨hjmem, hjmatch⟩
        rcases List.mem_cons.mp hjmem with hhead | htail
        · obtain ⟨rfl, rfl⟩ := Prod.mk.injEq .. |>.mp hhead
          exact absurd hjmatch hm
        · exact hbeats j ld' ⟨htail, hjmatch⟩

/-- C2: when at least one configured layer pattern matches a module path,
`selectLayer` (the per-module body of `assignLayersToModules`) picks a
matching layer that beats every matching layer: strictly higher effective
precedence, or equal precedence and strictly higher specificity, or equal
key and declared no later in the config list. -/
theorem c2_layer_tiebreak (layers : List LayerDefinition) (path : String)
    (i : Nat) (ld : LayerDefinition)
    (hmem : (i, ld) ∈ layers.enum)
    (hmatch : matchGlob (normalizeSlashes path) (normalizeSlashes ld.pattern) = true) :
    ∃ k chosen,
      selectLayer layers path = some chosen ∧
      (k, chosen) ∈ layers.enum ∧
      matchGlob (normalizeSlashes path) (normalizeSlashes chosen.pattern) = true ∧
      ∀ j ld', (j, ld') ∈ layers.enum →
        matchGlob (normalizeSlashes path) (normalizeSlashes ld'.pattern) = true →
        beatsP k chosen j ld' := by
  rcases selectLoop_none_spec (normalizeSlashes path) layers.enum with
    ⟨_, hall⟩ | ⟨chosen, k, heq, hcmem, hbeats⟩
  · exact absurd hmatch (hall i ld hmem)
  · refine ⟨k, chosen, ?_, hcmem.1, hcmem.2, ?_⟩
    · unfold selectLayer
      rw [heq]
      rfl
    · intro j ld' hjmem hjmatch
      exact hbeats j ld' ⟨hjmem, hjmatch⟩

/-- Witness for C2: two layers with equal precedence where the later
declared but more specific pattern wins. -/
theorem c2_layer_tiebreak_witness :
    ∃ k chosen,
      selectLayer
        [⟨"view", "**/views/**", ["viewmodel"], none⟩,
         ⟨"special", "src/app/views/**", [], none⟩] "src/app/views/x.ts" =
        some chosen ∧
      (k, chosen) ∈
        ([⟨"view", "**/views/**", ["viewmodel"], none⟩,
          ⟨"special", "src/app/views/**", [], none⟩] :
          List LayerDefinition).enum ∧
      matchGlob (normalizeSlashes "src/app/views/x.ts")
        (normalizeSlashes chosen.pattern) = true ∧
      ∀ j ld', (j, ld') ∈
          ([⟨"view", "**/views/**", ["viewmodel"], none⟩,
            ⟨"special", "src/app/views/**", [], none⟩] :
            List LayerDefinition).enum →
        matchGlob (normalizeSlashes "src/app/views/x.ts")
          (normalizeSlashes ld'.pattern) = true →
        beatsP k chosen j ld' :=
  c2_layer_tiebreak
    [⟨"view", "**/views/**", ["viewmodel"], none⟩,
     ⟨"special", "src/app/views/**", [], none⟩] "src/app/views/x.ts"
    0 ⟨"view", "**/views/**", ["viewmodel"], none⟩ (by decide) (by decide)

/-! ## Dependency-direction check (C3) -/

/-- The MVVM-style scenario config: a `view` layer allowed to depend only
on `viewmodel`, and a `data` layer. -/
def c3Config : ArchitectureConfig :=
  ⟨Language.typescript,
    [⟨"view", "**/views/**", ["viewmodel"], none⟩,
     ⟨"data", "**/data/**", [], none⟩], none⟩

/-- The resolved dependency of the scenario. -/
def c3Dep : Dependency :=
  ⟨"app/views/screen.ts", "app/data/db.ts", 3,
    "import db from ../data/db", false, false⟩

/-- The two scenario modules: a view file importing a data file. -/
def c3Modules : List Module :=
  [⟨"app/views/screen.ts", none, [c3Dep], []⟩,
   ⟨"app/data/db.ts", none, [], []⟩]

/-- C3: a violation is emitted by `checkLayerBoundaries` exactly when a
dependency is local-resolved, both endpoint modules carry (non-empty)
layers found in the layer map, the layers differ, and the source layer's
allow-list does not contain the target layer; and in the concrete
view/data scenario the full analysis yields exactly one
`dependency-direction` error violation attached to the importing file and
the import line. -/
theorem c3_dependency_direction :
    (∀ (layers : List LayerDefinition) (modules : List Module) (v : Violation),
      v ∈ checkLayerBoundaries layers modules ↔
      ∃ m ∈ modules, ∃ dep ∈ m.dependencies,
        ∃ (lname : String) (layerDef : LayerDefinition) (target : Module)
          (tl : String),
          m.layer = some lname ∧ lname ≠ "" ∧
          jsMapLookup (layerMapOf layers) lname = some layerDef ∧
          dep.isExternal = false ∧ dep.isUnresolved = false ∧
          jsMapLookup (jsMapFromList (modules.map fun m2 => (m2.path, m2)))
            dep.toPath = some target ∧
          target.layer = some tl ∧ tl ≠ "" ∧ tl ≠ lname ∧
          layerDef.canDependOn.contains tl = false ∧
          v = boundaryViolation m lname layerDef dep tl) ∧
    (analyze c3Config c3Modules).violations =
      [boundaryViolation ⟨"app/views/screen.ts", some "view", [c3Dep], []⟩
        "view" ⟨"view", "**/views/**", ["viewmodel"], none⟩ c3Dep "data"] ∧
    (boundaryViolation ⟨"app/views/screen.ts", some "view", [c3Dep], []⟩
      "view" ⟨"view", "**/views/**", ["viewmodel"], none⟩ c3Dep "data").ruleId =
      "dependency-direction" ∧
    (boundaryViolation ⟨"app/views/screen.ts", some "view", [c3Dep], []⟩
      "view" ⟨"view", "**/views/**", ["viewmodel"], none⟩ c3Dep "data").severity =
      ViolationSeverity.error ∧
    (boundaryViolation ⟨"app/views/screen.ts", some "view", [c3Dep], []⟩
      "view" ⟨"view", "**/views/**", ["viewmodel"], none⟩ c3Dep "data").filePath =
      "app/views/screen.ts" ∧
    (boundaryViolation ⟨"app/views/screen.ts", some "view", [c3Dep], []⟩
      "view" ⟨"view", "**/views/**", ["viewmodel"], none⟩ c3Dep "data").line = 3 := by
  refine ⟨?_, by decide, rfl, rfl, rfl, rfl⟩
  intro layers modules v
  constructor
  · intro hv
    simp only [checkLayerBoundaries, List.mem_flatMap] at hv
    obtain ⟨m, hm, hv⟩ := hv
    split at hv
    · simp at hv
    · next lname hlayer =>
      split at hv
      · simp at hv
      · next hlname =>
        split at hv
        · simp at hv
        · next layerDef hlm =>
          simp only [List.mem_filterMap] at hv
          obtain ⟨dep, hdep, hsome⟩ := hv
          split at hsome
          · simp at hsome
          · next hcond =>
            simp only [Bool.or_eq_true, not_or, Bool.not_eq_true] at hcond
            split at hsome
            · simp at hsome
            · next target hmm =>
              split at hsome
              · simp at hsome
              · next tl htl =>
                split at hsome
                · simp at hsome
                · next htlne =>
                  split at hsome
                  · simp at hsome
                  · next htlne2 =>
                    split at hsome
                    · simp at hsome
                    · next hcdo =>
                      rcases Option.some.inj hsome with rfl
                      exact ⟨m, hm, dep, hdep, lname, layerDef, target, tl,
                        hlayer, hlname, hlm, hcond.1, hcond.2, hmm, htl,
                        htlne, htlne2, Bool.not_eq_true _ ▸ hcdo, rfl⟩
  · rintro ⟨m, hm, dep, hdep, lname, layerDef, target, tl, hlayer, hlname,
      hlm, hext, hunres, hmm, htl, htlne, htlne2, hcdo, rfl⟩
    simp only [checkLayerBoundaries, List.mem_flatMap]
    refine ⟨m, hm, ?_⟩
    rw [hlayer]
    simp only [List.mem_filterMap, if_neg hlname, hlm]
    refine ⟨dep, hdep, ?_⟩
    rw [hext, hunres, hmm]
    simp only [htl]
    have hcdo2 : tl ∉ layerDef.canDependOn := by simpa using hcdo
    simp [htl, htlne, htlne2, hcdo2]

/-- Witness for C3: the characterization instantiated at the scenario. -/
theorem c3_dependency_direction_witness :
    boundaryViolation ⟨"app/views/screen.ts", some "view", [c3Dep], []⟩
      "view" ⟨"view", "**/views/**", ["viewmodel"], none⟩ c3Dep "data" ∈
    checkLayerBoundaries c3Config.layers
      [⟨"app/views/screen.ts", some "view", [c3Dep], []⟩,
       ⟨"app/data/db.ts", some "data", [], []⟩] :=
  (c3_dependency_direction.1 c3Config.layers
    [⟨"app/views/screen.ts", some "view", [c3Dep], []⟩,
     ⟨"app/data/db.ts", some "data", [], []⟩] _).mpr
    ⟨⟨"app/views/screen.ts", some "view", [c3Dep], []⟩, by decide, c3Dep,
      by decide, "view", ⟨"view", "**/views/**", ["viewmodel"], none⟩,
      ⟨"app/data/db.ts", some "data", [], []⟩, "data", rfl, by decide, by decide,
      rfl, rfl, by decide, rfl, by decide, by decide, by decide, rfl⟩

/-! ## Circular-dependency check (C4) -/

/-- A module with a single local-resolved dependency (for cycle tests). -/
def cycModule (p t : String) : Module :=
  ⟨p, none, [⟨p, t, 1, "import " ++ t, false, false⟩], []⟩

/-- The three-module cycle A→B→C→A. -/
def c4Modules : List Module :=
  [cycModule "a.ts" "b.ts", cycModule "b.ts" "c.ts", cycModule "c.ts" "a.ts"]

/-- C4: every circular-dependency violation is a warning attached to the
first module of its cycle path, and on the concrete graph A→B→C→A the
check reports exactly one warning violation whose message names all three
modules. -/
theorem c4_circular_dependency :
    (∀ (modules : List Module) (cycles : List (List String)) (v : Violation),
      v ∈ cyclesToViolations modules cycles →
      ∃ cycle ∈ cycles, 1 < cycle.length ∧ v.filePath = cycle.headD "" ∧
        v.severity = ViolationSeverity.warning ∧
        v.ruleId = "circular-dependency") ∧
    checkCircularDependencies c4Modules =
      [⟨"circular-dependency", ViolationType.circularDependency,
        ViolationSeverity.warning,
        "Circular dependency detected: a.ts -> b.ts -> c.ts -> a.ts", "a.ts", 1,
        some "Refactor to break the circular dependency by introducing an abstraction or reorganizing modules"⟩] ∧
    strContains "Circular dependency detected: a.ts -> b.ts -> c.ts -> a.ts"
      "a.ts" = true ∧
    strContains "Circular dependency detected: a.ts -> b.ts -> c.ts -> a.ts"
      "b.ts" = true ∧
    strContains "Circular dependency detected: a.ts -> b.ts -> c.ts -> a.ts"
      "c.ts" = true := by
  refine ⟨?_, by decide, by decide, by decide, by decide⟩
  intro modules cycles v hv
  simp only [cyclesToViolations, List.mem_flatMap] at hv
  obtain ⟨cycle, hcyc, hv⟩ := hv
  split at hv
  · next hlen =>
    split at hv
    · next m hfind =>
      simp only [List.mem_singleton] at hv
      subst hv
      have hp := List.find?_some hfind
      exact ⟨cycle, hcyc, hlen, by simpa using hp, rfl, rfl⟩
    · simp at hv
  · simp at hv

/-- Witness for C4: the attachment property at the concrete cycle. -/
theorem c4_circular_dependency_witness :
    ∃ cycle ∈ collectCycles c4Modules, 1 < cycle.length ∧
      Violation.filePath ⟨"circular-dependency",
        ViolationType.circularDependency, ViolationSeverity.warning,
        "Circular dependency detected: a.ts -> b.ts -> c.ts -> a.ts", "a.ts", 1,
        some "Refactor to break the circular dependency by introducing an abstraction or reorganizing modules"⟩ =
        cycle.headD "" ∧
      Violation.severity ⟨"circular-dependency",
        ViolationType.circularDependency, ViolationSeverity.warning,
        "Circular dependency detected: a.ts -> b.ts -> c.ts -> a.ts", "a.ts", 1,
        some "Refactor to break the circular dependency by introducing an abstraction or reorganizing modules"⟩ =
        ViolationSeverity.warning ∧
      Violation.ruleId ⟨"circular-dependency",
        ViolationType.circularDependency, ViolationSeverity.warning,
        "Circular dependency detected: a.ts -> b.ts -> c.ts -> a.ts", "a.ts", 1,
        some "Refactor to break the circular dependency by introducing an abstraction or reorganizing modules"⟩ =
        "circular-dependency" :=
  c4_circular_dependency.1 c4Modules (collectCycles c4Modules) _ (by decide)

/-! ## Relative-import over-ascension (C5) -/

/-- C5 (counterexample): `from ....bad import nope2` in
`shop/views/cart.py` ascends past the available package depth; the
resulting dependency is classified external, not local-unresolved as the
claim states. -/
theorem c5_counterexample :
    pythonParseImports "from ....bad import nope2" "shop/views/cart.py"
      "shop.views.cart" [] [] =
      [⟨"shop/views/cart.py", "....bad", 1, "from ....bad import nope2",
        true, false⟩] ∧
    ¬(Dependency.isUnresolved ⟨"shop/views/cart.py", "....bad", 1,
        "from ....bad import nope2", true, false⟩ = true ∧
      Dependency.isExternal ⟨"shop/views/cart.py", "....bad", 1,
        "from ....bad import nope2", true, false⟩ = false) := by
  decide

/-- C5 (amended): when a relative import's parent-level count exceeds
the importing file's package depth, `resolveModuleSpec` fails, and the
resulting dependency is classified external (`isExternal = true`,
`isUnresolved = false`) with the raw module spec as its target. -/
theorem c5_overascension_external :
    (∀ (spec fromModule : String),
      strStartsWith spec "." = true →
      ((splitOnChar fromModule '.').filter (· ≠ "")).dropLast.length <
        (spec.data.takeWhile (· == '.')).length - 1 →
      pythonResolveModuleSpec spec fromModule = none) ∧
    pythonParseImports "from ....bad import nope2" "shop/views/cart.py"
      "shop.views.cart" [("shop", "shop/__init__.py")] ["shop"] =
      [⟨"shop/views/cart.py", "....bad", 1, "from ....bad import nope2",
        true, false⟩] := by
  constructor
  · intro spec fromModule h1 h2
    unfold pythonResolveModuleSpec
    rw [h1]
    simp only [Bool.not_true, Bool.false_eq_true, if_false]
    rw [if_pos h2]
  · decide

/-- Witness for C5 at the concrete over-ascending spec. -/
theorem c5_overascension_external_witness :
    pythonResolveModuleSpec "....bad" "shop.views.cart" = none :=
  c5_overascension_external.1 "....bad" "shop.views.cart" (by decide) (by decide)

/-! ## Comment/string sanitization (C7) -/

/-- C7 (counterexample): the Swift parser matches raw lines, so an import
statement lying entirely inside a block comment is reported as a
dependency. -/
theorem c7_counterexample :
    swiftParseImports ("/*" ++ String.singleton (Char.ofNat 10) ++ "import Foo" ++
        String.singleton (Char.ofNat 10) ++ "*/") "a.swift" [] =
      [⟨"a.swift", "Foo", 2, "import Foo", true, false⟩] := by
  decide

/-- C7 (amended): only the Kotlin parser operates on a sanitized copy,
so import-like text inside Kotlin block comments, line comments or raw
strings is never matched, while the Python parser reports an import inside
a triple-quoted string and the Swift parser reports an import inside a
block comment. -/
theorem c7_sanitization :
    kotlinParseImports
      ("import com.real.E" ++ String.singleton (Char.ofNat 10) ++
        "/*" ++ String.singleton (Char.ofNat 10) ++
        "import com.a.B" ++ String.singleton (Char.ofNat 10) ++
        "*/" ++ String.singleton (Char.ofNat 10) ++
        "// import com.e.F" ++ String.singleton (Char.ofNat 10) ++
        "val s = " ++ String.mk [Char.ofNat 34, Char.ofNat 34, Char.ofNat 34] ++
        String.singleton (Char.ofNat 10) ++
        "import com.c.D" ++ String.singleton (Char.ofNat 10) ++
        String.mk [Char.ofNat 34, Char.ofNat 34, Char.ofNat 34])
      "a.kt" [] [] [] =
      [⟨"a.kt", "com.real.E", 1, "import com.real.E", true, false⟩] ∧
    pythonParseImports
      (String.mk [Char.ofNat 34, Char.ofNat 34, Char.ofNat 34] ++
        String.singleton (Char.ofNat 10) ++ "import os" ++
        String.singleton (Char.ofNat 10) ++
        String.mk [Char.ofNat 34, Char.ofNat 34, Char.ofNat 34])
      "x.py" "x" [] [] =
      [⟨"x.py", "os", 2, "import os", true, false⟩] ∧
    swiftParseImports ("/*" ++ String.singleton (Char.ofNat 10) ++ "import Bar" ++
        String.singleton (Char.ofNat 10) ++ "*/") "b.swift" [] =
      [⟨"b.swift", "Bar", 2, "import Bar", true, false⟩] := by
  refine ⟨by decide, by decide, by decide⟩

/-! ## Multi-line parenthesized imports (C9) -/

/-- The file list of the C9 scenario project. -/
def c9Files : List String :=
  ["shop/__init__.py", "shop/views/__init__.py", "shop/services/__init__.py",
   "shop/services/orders.py", "shop/views/cart.py"]

/-- The multi-line parenthesized import: four lines, a trailing comma, and
an inline comment on the second line. -/
def c9MultiLine : String :=
  "from shop.services.orders import (" ++ String.singleton (Char.ofNat 10) ++
  "    total,  # local alias target" ++ String.singleton (Char.ofNat 10) ++
  String.singleton (Char.ofNat 10) ++ ")"

/-- C9: the four-line parenthesized import (with trailing comma and inline
comment) resolves to the same target path and classification as the
equivalent single-line import of the same symbol from the same module. -/
theorem c9_multiline_equivalence :
    (pythonParseImports c9MultiLine "shop/views/cart.py" "shop.views.cart"
        (pythonBuildModuleIndex c9Files)
        (pythonBuildTopLevelPackages (pythonBuildModuleIndex c9Files))).map
      (fun d => (d.toPath, d.isExternal, d.isUnresolved)) =
    (pythonParseImports "from shop.services.orders import total"
        "shop/views/cart.py" "shop.views.cart"
        (pythonBuildModuleIndex c9Files)
        (pythonBuildTopLevelPackages (pythonBuildModuleIndex c9Files))).map
      (fun d => (d.toPath, d.isExternal, d.isUnresolved)) ∧
    (pythonParseImports c9MultiLine "shop/views/cart.py" "shop.views.cart"
        (pythonBuildModuleIndex c9Files)
        (pythonBuildTopLevelPackages (pythonBuildModuleIndex c9Files))).map
      (fun d => (d.toPath, d.isExternal, d.isUnresolved)) =
      [("shop/services/orders.py", false, false)] := by
  refine ⟨by decide, by decide⟩

end Arclint
